import Mathlib

/-!
# gview: account store and fan-out search

A shallow embedding of `main.go`: the account store operations (`readConfig`,
`writeConfig`, `addAccount`, `removeAccount`) and the search orchestration
(`search`, `searchEC2Instances`, `searchIAMUser`).

Effects are made explicit.  Every operation yields the ordered list of the
effects it performed (file accesses, client constructions, remote calls, lines
printed, lines logged) together with the way it ended: by returning to its
caller, by `os.Exit`, or by a runtime panic.  The remote services and the SDK
are a parameter (`Remote`): a function from each request to its answer.
-/

namespace Gview

/-! ## Data model -/

/-- One record of the configuration file (`type Account struct`). -/
structure Account where
  Name : String
  AccessKey : String
  SecretKey : String
  Regions : List String
deriving DecidableEq

/-- The whole configuration file (`type Config struct`). -/
structure Config where
  Accounts : List Account
deriving DecidableEq

/-- The value `config.LoadDefaultConfig` hands back: the region and the static
credentials every later request of that client is signed with. -/
structure AwsCfg where
  Region : String
  AccessKey : String
  SecretKey : String
deriving DecidableEq

/-- One entry of `types.Filter`. -/
structure Filter where
  Name : String
  Values : List String
deriving DecidableEq

/-- The two members of `ec2.DescribeInstancesInput` the program sets. -/
structure DescribeInstancesInput where
  InstanceIds : List String
  Filters : List Filter
deriving DecidableEq

/-- The members of `types.Instance` the program reads.  In the SDK all four are
optional on the wire.  `InstanceId` and `InstanceType` are present on every
instance the service describes and are plain strings here.  The two addresses
are pointers the service leaves nil when the instance has no such address (a
stopped instance has no public address, a terminated one has neither), so they
are options: `none` is the nil pointer. -/
structure Instance where
  InstanceId : String
  InstanceType : String
  PrivateIpAddress : Option String
  PublicIpAddress : Option String
deriving DecidableEq

/-- One element of `DescribeInstancesOutput.Reservations`. -/
structure Reservation where
  Instances : List Instance
deriving DecidableEq

/-- The answer of a successful `DescribeInstances` call. -/
structure DescribeInstancesOutput where
  Reservations : List Reservation
deriving DecidableEq

/-- The members of the IAM `types.User` the program reads; the service marks
all three as required, so they are plain strings. -/
structure User where
  UserName : String
  UserId : String
  Arn : String
deriving DecidableEq

/-- The member of `types.AccessKeyMetadata` the program reads; the service
returns the identifier with every key it lists, so it is a plain string. -/
structure AccessKeyMetadata where
  AccessKeyId : String
deriving DecidableEq

/-- The SDK and the remote services, as functions from a request to its answer:
`.error e` is a call that came back with error `e`. -/
structure Remote where
  LoadDefaultConfig : String → String → String → Except String AwsCfg
  DescribeInstances : AwsCfg → DescribeInstancesInput → Except String DescribeInstancesOutput
  ListUsers : AwsCfg → Except String (List User)
  ListAccessKeys : AwsCfg → String → Except String (List AccessKeyMetadata)

/-! ## Effects -/

/-- The lines the program writes to standard output, one constructor for each
`fmt.Printf` / `fmt.Println` of the source, with its arguments. -/
inductive Line
  | instancesFound (accountName region : String)
  | instanceId (id : String)
  | instanceType (t : String)
  | region (region : String)
  | privateIp (ip : String)
  | publicIp (ip : String)
  | separator
  | iamFound (searchAccessKey accountName : String)
  | userName (name : String)
  | userId (id : String)
  | arn (arn : String)
  | iamNotFound (searchAccessKey accountName : String)
  | accountAdded (name : String)
  | accountRemoved (name : String)
deriving DecidableEq

/-- The text of a line, as the format strings of the source produce it. -/
def Line.render : Line → String
  | .instancesFound a r => "Instances found in account: " ++ a ++ ", Region: " ++ r ++ "\n"
  | .instanceId s => "Instance ID: " ++ s ++ "\n"
  | .instanceType s => "Instance Type: " ++ s ++ "\n"
  | .region r => "Region: " ++ r ++ "\n"
  | .privateIp s => "Private IP Address: " ++ s ++ "\n"
  | .publicIp s => "Public IP Address: " ++ s ++ "\n"
  | .separator => "-----\n"
  | .iamFound k a => "Found IAM user with access key " ++ k ++ " in account " ++ a ++ "\n"
  | .userName s => "User Name: " ++ s ++ "\n"
  | .userId s => "User ID: " ++ s ++ "\n"
  | .arn s => "ARN: " ++ s ++ "\n"
  | .iamNotFound k a => "No IAM user found with access key " ++ k ++ " in account " ++ a ++ "\n"
  | .accountAdded s => "Account " ++ s ++ " added successfully\n"
  | .accountRemoved s => "Account " ++ s ++ " removed successfully\n"

/-- One observable effect. -/
inductive Event
  | readFile
  | writeFile (config : Config)
  | loadDefaultConfig (region accessKey secretKey : String)
  | describeInstances (cfg : AwsCfg) (input : DescribeInstancesInput)
  | listUsers (cfg : AwsCfg)
  | listAccessKeys (cfg : AwsCfg) (userName : String)
  | stdout (line : Line)
  | log (text : String)
deriving DecidableEq

/-- How a piece of code ended: it returned to its caller, it ended the process
through `os.Exit code` (`log.Fatal` and `log.Fatalf` exit with 1), or it
dereferenced a nil pointer (the Go runtime then ends the process with
status 2). -/
inductive Status
  | returned
  | exited (code : Nat)
  | panicked
deriving DecidableEq

/-- The effects of a piece of code, in order, and how it ended. -/
structure Run where
  trace : List Event
  status : Status
deriving DecidableEq

/-- Code that does nothing and returns. -/
def Run.done : Run := ⟨[], .returned⟩

/-- The run `r` with the effects `es` performed before it. -/
def Run.after (es : List Event) (r : Run) : Run := ⟨es ++ r.trace, r.status⟩

/-- Sequencing: `k` runs only when `r` returned; a process that exited or
panicked in `r` performs nothing of `k`. -/
def Run.seq (r k : Run) : Run :=
  match r.status with
  | .returned => ⟨r.trace ++ k.trace, k.status⟩
  | _ => r

/-- A remote query: a call to the compute or to the identity service. -/
def Event.isRemote : Event → Bool
  | .describeInstances _ _ => true
  | .listUsers _ => true
  | .listAccessKeys _ _ => true
  | _ => false

/-- A client construction. -/
def Event.isLoad : Event → Bool
  | .loadDefaultConfig _ _ _ => true
  | _ => false

/-- A line on standard output. -/
def Event.isStdout : Event → Bool
  | .stdout _ => true
  | _ => false

/-- A `ListAccessKeys` call. -/
def Event.isListAccessKeys : Event → Bool
  | .listAccessKeys _ _ => true
  | _ => false

/-- A `DescribeInstances` call. -/
def Event.isDescribe : Event → Bool
  | .describeInstances _ _ => true
  | _ => false

/-- A write of the configuration file. -/
def Event.isWrite : Event → Bool
  | .writeFile _ => true
  | _ => false

/-! ## The account store -/

/-- What is behind the path of the configuration file: a file that cannot be
read, a file that is not the YAML of a `Config`, or the YAML of `config`
(`yaml.Unmarshal` of `yaml.Marshal config` is `config`). -/
inductive FileState
  | unreadable (err : String)
  | malformed (err : String)
  | holds (config : Config)
deriving DecidableEq

/-- The configuration file and whether `ioutil.WriteFile` on it succeeds
(`writeErr = none`) or fails with the given error. -/
structure Store where
  file : FileState
  writeErr : Option String
deriving DecidableEq

/-- The effects and end of a store operation, and the store it leaves. -/
structure StoreRun where
  trace : List Event
  status : Status
  store : Store
deriving DecidableEq

/-- Embedding of `readConfig`. -/
def readConfig (st : Store) : Except String Config :=
  match st.file with
  | .unreadable err => .error ("error reading YAML file: " ++ err)
  | .malformed err => .error ("error parsing YAML file: " ++ err)
  | .holds config => .ok config

/-- Embedding of `writeConfig`: the whole file is replaced.  A failed write is
reported and leaves the store as it was. -/
def writeConfig (st : Store) (config : Config) : Except String Store :=
  match st.writeErr with
  | some err => .error ("error writing YAML file: " ++ err)
  | none => .ok { st with file := .holds config }

/-- Pieces of `cs` between separators `sep`; `cur` holds the current piece,
reversed. -/
def splitChars (sep : Char) : List Char → List Char → List (List Char)
  | [], cur => [cur.reverse]
  | c :: cs, cur =>
      if c = sep then cur.reverse :: splitChars sep cs [] else splitChars sep cs (c :: cur)

/-- The function `strings.Split` for a one-character separator. -/
def stringsSplit (s : String) (sep : Char) : List String :=
  (splitChars sep s.toList []).map String.mk

/-- Embedding of `addAccount`. -/
def addAccount (st : Store) (name accessKey secretKey regions : String) : StoreRun :=
  match readConfig st with
  | .error err => ⟨[.readFile, .log err], .exited 1, st⟩
  | .ok config =>
    if config.Accounts.any (fun account => account.Name == name) then
      ⟨[.readFile, .log ("Account " ++ name ++ " already exists")], .exited 1, st⟩
    else
      let newAccount : Account :=
        { Name := name, AccessKey := accessKey, SecretKey := secretKey,
          Regions := stringsSplit regions ',' }
      let config1 : Config := { Accounts := config.Accounts ++ [newAccount] }
      match writeConfig st config1 with
      | .error err => ⟨[.readFile, .writeFile config1, .log err], .exited 1, st⟩
      | .ok st1 =>
        ⟨[.readFile, .writeFile config1, .stdout (.accountAdded name)], .returned, st1⟩

/-- Embedding of `removeAccount`. -/
def removeAccount (st : Store) (name : String) : StoreRun :=
  match readConfig st with
  | .error err => ⟨[.readFile, .log err], .exited 1, st⟩
  | .ok config =>
    let updatedAccounts := config.Accounts.filter (fun account => account.Name != name)
    if updatedAccounts.length = config.Accounts.length then
      ⟨[.readFile, .log ("Account " ++ name ++ " not found")], .exited 1, st⟩
    else
      let config1 : Config := { Accounts := updatedAccounts }
      match writeConfig st config1 with
      | .error err => ⟨[.readFile, .writeFile config1, .log err], .exited 1, st⟩
      | .ok st1 =>
        ⟨[.readFile, .writeFile config1, .stdout (.accountRemoved name)], .returned, st1⟩

/-! ## The instance matcher -/

/-- One `svc.DescribeInstances` call of `searchEC2Instances` with its error
branch: the effects, and the answer appended to `results` (none on error). -/
def describeStep (env : Remote) (cfg : AwsCfg) (input : DescribeInstancesInput)
    (errText : String → String) : List Event × List DescribeInstancesOutput :=
  match env.DescribeInstances cfg input with
  | .error err => ([.describeInstances cfg input, .log (errText err)], [])
  | .ok result => ([.describeInstances cfg input], [result])

/-- Body of the innermost loop of `searchEC2Instances`: the record of one
instance, then `os.Exit(0)`.  `*instance.PrivateIpAddress` is dereferenced
without a nil check, `instance.PublicIpAddress` is checked. -/
def printInstance (region : String) (inst : Instance) : Run :=
  match inst.PrivateIpAddress with
  | none =>
      ⟨[.stdout (.instanceId inst.InstanceId), .stdout (.instanceType inst.InstanceType),
        .stdout (.region region)], .panicked⟩
  | some privateIp =>
      ⟨[.stdout (.instanceId inst.InstanceId), .stdout (.instanceType inst.InstanceType),
        .stdout (.region region), .stdout (.privateIp privateIp)]
        ++ (match inst.PublicIpAddress with
            | some publicIp => [.stdout (.publicIp publicIp)]
            | none => [])
        ++ [.stdout .separator], .exited 0⟩

/-- The loop `for _, instance := range reservation.Instances`. -/
def printInstances (region : String) : List Instance → Run
  | [] => Run.done
  | inst :: rest => (printInstance region inst).seq (printInstances region rest)

/-- The loop `for _, reservation := range result.Reservations`. -/
def printReservations (region : String) : List Reservation → Run
  | [] => Run.done
  | reservation :: rest =>
      (printInstances region reservation.Instances).seq (printReservations region rest)

/-- Body of the loop over `results`. -/
def printResult (accountName region : String) (result : DescribeInstancesOutput) : Run :=
  if result.Reservations.length > 0 then
    (printReservations region result.Reservations).after
      [.stdout (.instancesFound accountName region)]
  else Run.done

/-- The loop `for _, result := range results`. -/
def printResults (accountName region : String) : List DescribeInstancesOutput → Run
  | [] => Run.done
  | result :: rest =>
      (printResult accountName region result).seq (printResults accountName region rest)

/-- The query by instance identifier. -/
def byIdInput (instanceID : String) : DescribeInstancesInput :=
  { InstanceIds := [instanceID], Filters := [] }

/-- The value `privateIPFilter`. -/
def privateIPFilter (ipAddress : String) : DescribeInstancesInput :=
  { InstanceIds := [], Filters := [{ Name := "private-ip-address", Values := [ipAddress] }] }

/-- The value `publicIPFilter`. -/
def publicIPFilter (ipAddress : String) : DescribeInstancesInput :=
  { InstanceIds := [], Filters := [{ Name := "ip-address", Values := [ipAddress] }] }

/-- The queries of `searchEC2Instances`, before anything is printed: their
effects and the accumulated `results`. -/
def ec2Queries (env : Remote) (cfg : AwsCfg) (accountName region instanceID ipAddress : String) :
    List Event × List DescribeInstancesOutput :=
  let q1 :=
    if instanceID ≠ "" then
      describeStep env cfg (byIdInput instanceID) (fun err =>
        "Error describing instance " ++ instanceID ++ " in account " ++ accountName
          ++ ", region " ++ region ++ ": " ++ err ++ "\n")
    else ([], [])
  let q2 :=
    if ipAddress ≠ "" then
      describeStep env cfg (privateIPFilter ipAddress) (fun err =>
        "Error describing instances by private IP " ++ ipAddress ++ " in account " ++ accountName
          ++ ", region " ++ region ++ ": " ++ err ++ "\n")
    else ([], [])
  let q3 :=
    if ipAddress ≠ "" then
      describeStep env cfg (publicIPFilter ipAddress) (fun err =>
        "Error describing instances by public IP " ++ ipAddress ++ " in account " ++ accountName
          ++ ", region " ++ region ++ ": " ++ err ++ "\n")
    else ([], [])
  (q1.1 ++ q2.1 ++ q3.1, q1.2 ++ q2.2 ++ q3.2)

/-- Embedding of `searchEC2Instances`. -/
def searchEC2Instances (env : Remote) (cfg : AwsCfg)
    (accountName region instanceID ipAddress : String) : Run :=
  let q := ec2Queries env cfg accountName region instanceID ipAddress
  (printResults accountName region q.2).after q.1

/-! ## The principal matcher -/

/-- The loop `for _, user := range listUsersOutput.Users` of `searchIAMUser`
and the line printed after it.  A failed `ListAccessKeys` is logged and the
loop goes on with the next user (`continue`); a key equal to
`searchAccessKey` prints the user and returns from the function. -/
def scanUsers (env : Remote) (cfg : AwsCfg) (accountName searchAccessKey : String) :
    List User → Run
  | [] => ⟨[.stdout (.iamNotFound searchAccessKey accountName)], .returned⟩
  | user :: rest =>
      match env.ListAccessKeys cfg user.UserName with
      | .error err =>
          (scanUsers env cfg accountName searchAccessKey rest).after
            [.listAccessKeys cfg user.UserName,
             .log ("Error listing access keys for user " ++ user.UserName ++ " in account "
               ++ accountName ++ ": " ++ err ++ "\n")]
      | .ok keys =>
          if keys.any (fun accessKeyMetadata => accessKeyMetadata.AccessKeyId == searchAccessKey) then
            ⟨[.listAccessKeys cfg user.UserName,
              .stdout (.iamFound searchAccessKey accountName),
              .stdout (.userName user.UserName), .stdout (.userId user.UserId),
              .stdout (.arn user.Arn), .stdout .separator], .returned⟩
          else
            (scanUsers env cfg accountName searchAccessKey rest).after
              [.listAccessKeys cfg user.UserName]

/-- Embedding of `searchIAMUser`. -/
def searchIAMUser (env : Remote) (cfg : AwsCfg) (accountName searchAccessKey : String) : Run :=
  match env.ListUsers cfg with
  | .error err =>
      ⟨[.listUsers cfg,
        .log ("Error listing IAM users in account " ++ accountName ++ ": " ++ err ++ "\n")],
       .returned⟩
  | .ok users => (scanUsers env cfg accountName searchAccessKey users).after [.listUsers cfg]

/-! ## The orchestrator -/

/-- Body of the inner loop of `search`: one (account, region) pair. -/
def searchPair (env : Remote) (instanceID ipAddress searchIAM : String)
    (account : Account) (region : String) : Run :=
  match env.LoadDefaultConfig region account.AccessKey account.SecretKey with
  | .error err =>
      ⟨[.loadDefaultConfig region account.AccessKey account.SecretKey,
        .log ("Unable to load SDK config for account " ++ account.Name ++ ", region " ++ region
          ++ ": " ++ err)], .returned⟩
  | .ok awsCfg =>
      (if searchIAM ≠ "" then searchIAMUser env awsCfg account.Name searchIAM
       else searchEC2Instances env awsCfg account.Name region instanceID ipAddress).after
        [.loadDefaultConfig region account.AccessKey account.SecretKey]

/-- The loop `for _, region := range account.Regions`. -/
def searchRegions (env : Remote) (instanceID ipAddress searchIAM : String) (account : Account) :
    List String → Run
  | [] => Run.done
  | region :: rest =>
      (searchPair env instanceID ipAddress searchIAM account region).seq
        (searchRegions env instanceID ipAddress searchIAM account rest)

/-- The loop `for _, account := range cfg.Accounts`. -/
def searchAccounts (env : Remote) (instanceID ipAddress searchIAM : String) :
    List Account → Run
  | [] => Run.done
  | account :: rest =>
      (searchRegions env instanceID ipAddress searchIAM account account.Regions).seq
        (searchAccounts env instanceID ipAddress searchIAM rest)

/-- Embedding of `search`. -/
def search (env : Remote) (st : Store) (instanceID ipAddress searchIAM : String) : Run :=
  match readConfig st with
  | .error err => ⟨[.readFile, .log ("Failed to read configuration: " ++ err)], .exited 1⟩
  | .ok cfg => (searchAccounts env instanceID ipAddress searchIAM cfg.Accounts).after [.readFile]

/-! ## Vocabulary of the statements -/

/-- The (account, region) pairs in iteration order: accounts in stored order,
each account's regions in stored order. -/
def pairsOf (accounts : List Account) : List (Account × String) :=
  accounts.flatMap (fun account => account.Regions.map (fun region => (account, region)))

/-- A list of runs in sequence, each run only when all before it returned. -/
def runAll : List Run → Run
  | [] => Run.done
  | r :: rest => r.seq (runAll rest)

/-- The client construction of a pair, as an effect. -/
def loadEvent (p : Account × String) : Event :=
  .loadDefaultConfig p.2 p.1.AccessKey p.1.SecretKey

/-- The `DescribeInstances` requests of an instance search, in order. -/
def ec2Inputs (instanceID ipAddress : String) : List DescribeInstancesInput :=
  (if instanceID ≠ "" then [byIdInput instanceID] else [])
    ++ (if ipAddress ≠ "" then [privateIPFilter ipAddress, publicIPFilter ipAddress] else [])

/-- The instances of an answer, reservation by reservation. -/
def instancesOf (out : DescribeInstancesOutput) : List Instance :=
  out.Reservations.flatMap (fun reservation => reservation.Instances)

/-- The user's `ListAccessKeys` call succeeds and lists `searchAccessKey`. -/
def holdsKey (env : Remote) (cfg : AwsCfg) (searchAccessKey : String) (user : User) : Bool :=
  match env.ListAccessKeys cfg user.UserName with
  | .ok keys => keys.any (fun accessKeyMetadata => accessKeyMetadata.AccessKeyId == searchAccessKey)
  | .error _ => false

/-- The lines that report `user` as the holder of `searchAccessKey`. -/
def foundReport (searchAccessKey accountName : String) (user : User) : List Event :=
  [.stdout (.iamFound searchAccessKey accountName), .stdout (.userName user.UserName),
   .stdout (.userId user.UserId), .stdout (.arn user.Arn), .stdout .separator]

/-- A remote call of the pair yields a match: with a client constructed, for an
access-key search `ListUsers` succeeds with a user that holds the key, for an
instance search one of the `DescribeInstances` calls succeeds with an
instance. -/
def pairMatches (env : Remote) (instanceID ipAddress searchIAM : String)
    (p : Account × String) : Bool :=
  match env.LoadDefaultConfig p.2 p.1.AccessKey p.1.SecretKey with
  | .error _ => false
  | .ok cfg =>
      if searchIAM ≠ "" then
        match env.ListUsers cfg with
        | .ok users => users.any (holdsKey env cfg searchIAM)
        | .error _ => false
      else
        (ec2Inputs instanceID ipAddress).any (fun input =>
          match env.DescribeInstances cfg input with
          | .ok out => !(instancesOf out).isEmpty
          | .error _ => false)

/-- A `ListUsers` call, the first action of every `searchIAMUser` invocation. -/
def Event.isListUsers : Event → Bool
  | .listUsers _ => true
  | _ => false

/-- The first line of the report of a found user. -/
def Event.isFound : Event → Bool
  | .stdout (.iamFound _ _) => true
  | _ => false

/-- The client of a pair, when its construction succeeds. -/
def clientOf (env : Remote) (p : Account × String) : Option AwsCfg :=
  match env.LoadDefaultConfig p.2 p.1.AccessKey p.1.SecretKey with
  | .ok cfg => some cfg
  | .error _ => none

/-- The answers `searchEC2Instances` collects with the client `cfg`: those of
the successful calls, in call order. -/
def ec2Answers (env : Remote) (instanceID ipAddress : String) (cfg : AwsCfg) :
    List DescribeInstancesOutput :=
  (ec2Inputs instanceID ipAddress).filterMap
    (fun input => (env.DescribeInstances cfg input).toOption)

/-- The header lines an instance search prints for a pair none of whose answers
holds an instance: one for each answer with a non-empty reservation list. -/
def headersOf (env : Remote) (instanceID ipAddress : String) (p : Account × String) :
    List Event :=
  match clientOf env p with
  | none => []
  | some cfg =>
      ((ec2Answers env instanceID ipAddress cfg).filter
        (fun out => decide (out.Reservations.length > 0))).map
        (fun _ => Event.stdout (.instancesFound p.1.Name p.2))

/-- The pair has a client and its `ListUsers` call succeeds. -/
def listUsersOk (env : Remote) (p : Account × String) : Bool :=
  match clientOf env p with
  | none => false
  | some cfg =>
      match env.ListUsers cfg with
      | .ok _ => true
      | .error _ => false

/-- The effects of a pair whose client construction fails with `err`: the
attempt and the log line; the loop goes on (`continue`). -/
def failedLoad (account : Account) (region err : String) : Run :=
  ⟨[.loadDefaultConfig region account.AccessKey account.SecretKey,
    .log ("Unable to load SDK config for account " ++ account.Name ++ ", region " ++ region
      ++ ": " ++ err)], .returned⟩

/-- The effects of the key listing of one user in `searchIAMUser`: the
`ListAccessKeys` call, followed by the log line when the call fails. -/
def keyListing (env : Remote) (cfg : AwsCfg) (accountName : String) (user : User) :
    List Event :=
  .listAccessKeys cfg user.UserName ::
    (match env.ListAccessKeys cfg user.UserName with
     | .error err =>
         [.log ("Error listing access keys for user " ++ user.UserName ++ " in account "
           ++ accountName ++ ": " ++ err ++ "\n")]
     | .ok _ => [])

/-- The lines that close a scan of `users`: the report of the first user whose
own key listing succeeds and holds the key, or the not-found line. -/
def scanReport (env : Remote) (cfg : AwsCfg) (accountName searchAccessKey : String)
    (users : List User) : List Event :=
  match users.find? (holdsKey env cfg searchAccessKey) with
  | some u => foundReport searchAccessKey accountName u
  | none => [.stdout (.iamNotFound searchAccessKey accountName)]

/-! ## Concrete remotes -/

/-- A client for every region but "bad-region". -/
def Example.loadConfig (region accessKey secretKey : String) : Except String AwsCfg :=
  if region = "bad-region" then .error "invalid region" else .ok ⟨region, accessKey, secretKey⟩

/-- Three users. -/
def Example.users : List User :=
  [⟨"alice", "AIDA1", "arn:aws:iam::1:user/alice"⟩, ⟨"bob", "AIDA2", "arn:aws:iam::1:user/bob"⟩,
   ⟨"carol", "AIDA3", "arn:aws:iam::1:user/carol"⟩]

/-- An identity service with three users; "bob" holds the key "AKIATARGET". -/
def Example.iamRemote : Remote where
  LoadDefaultConfig := Example.loadConfig
  DescribeInstances := fun _ _ => .ok ⟨[]⟩
  ListUsers := fun _ => .ok Example.users
  ListAccessKeys := fun _ userName =>
    if userName = "alice" then .ok [⟨"AKIAALICE"⟩]
    else if userName = "bob" then .ok [⟨"AKIABOB"⟩, ⟨"AKIATARGET"⟩]
    else .ok [⟨"AKIACAROL"⟩]

/-- The same identity service, where the key listing of "alice" is denied. -/
def Example.deniedRemote : Remote where
  LoadDefaultConfig := Example.loadConfig
  DescribeInstances := fun _ _ => .ok ⟨[]⟩
  ListUsers := fun _ => .ok Example.users
  ListAccessKeys := fun _ userName =>
    if userName = "alice" then .error "AccessDenied"
    else if userName = "bob" then .ok [⟨"AKIABOB"⟩, ⟨"AKIATARGET"⟩]
    else .ok [⟨"AKIACAROL"⟩]

/-- A client of the account "prod" in us-east-1. -/
def Example.cfg : AwsCfg := ⟨"us-east-1", "AK1", "SK1"⟩

/-- Two accounts: "prod" with two regions, "dev" with a region for which no
client can be constructed and a good one. -/
def Example.accounts : List Account :=
  [⟨"prod", "AK1", "SK1", ["us-east-1", "eu-west-1"]⟩,
   ⟨"dev", "AK2", "SK2", ["bad-region", "us-west-2"]⟩]

/-- A readable, writable store that holds `Example.accounts`. -/
def Example.store : Store := ⟨.holds ⟨Example.accounts⟩, none⟩

/-- A compute service that knows the instance "i-0abc" in eu-west-1 (in the
second reservation of its answer; the first reservation is empty), fails every
query on the private address "10.0.0.5", and answers everything else with no
reservation. -/
def Example.ec2Remote : Remote where
  LoadDefaultConfig := Example.loadConfig
  DescribeInstances := fun cfg input =>
    if cfg.Region = "eu-west-1" ∧ input = byIdInput "i-0abc" then
      .ok ⟨[⟨[]⟩, ⟨[⟨"i-0abc", "t3.micro", some "10.0.0.7", some "54.1.2.3"⟩,
                   ⟨"i-0abd", "t3.small", some "10.0.0.8", none⟩]⟩]⟩
    else if input = privateIPFilter "10.0.0.5" then .error "RequestLimitExceeded"
    else .ok ⟨[]⟩
  ListUsers := fun _ => .ok []
  ListAccessKeys := fun _ _ => .ok []

/-- A compute service that knows the terminated instance "i-0dead" in
us-east-1: the service describes a terminated instance without addresses. -/
def Example.terminatedRemote : Remote where
  LoadDefaultConfig := Example.loadConfig
  DescribeInstances := fun cfg input =>
    if cfg.Region = "us-east-1" ∧ input = byIdInput "i-0dead" then
      .ok ⟨[⟨[⟨"i-0dead", "t3.micro", none, none⟩]⟩]⟩
    else .ok ⟨[]⟩
  ListUsers := fun _ => .ok []
  ListAccessKeys := fun _ _ => .ok []

/-- The identity service of `Example.iamRemote`, where `ListUsers` is throttled
for every client of the region eu-west-1. -/
def Example.throttledRemote : Remote where
  LoadDefaultConfig := Example.loadConfig
  DescribeInstances := fun _ _ => .ok ⟨[]⟩
  ListUsers := fun cfg => if cfg.Region = "eu-west-1" then .error "Throttling" else .ok Example.users
  ListAccessKeys := fun _ userName =>
    if userName = "alice" then .ok [⟨"AKIAALICE"⟩]
    else if userName = "bob" then .ok [⟨"AKIABOB"⟩, ⟨"AKIATARGET"⟩]
    else .ok [⟨"AKIACAROL"⟩]

/-- A readable, writable store that holds the one account "prod", with its two
regions. -/
def Example.prodStore : Store :=
  ⟨.holds ⟨[⟨"prod", "AK1", "SK1", ["us-east-1", "eu-west-1"]⟩]⟩, none⟩

/-! ## Account store: results -/

theorem any_name_eq_false {S : List Account} {n : String} (hn : ∀ a ∈ S, a.Name ≠ n) :
    S.any (fun account => account.Name == n) = false := by
  simp only [List.any_eq_false, beq_iff_eq]
  exact fun a ha => hn a ha

theorem filter_name_ne_self {S : List Account} {n : String} (hn : ∀ a ∈ S, a.Name ≠ n) :
    S.filter (fun account => account.Name != n) = S := by
  rw [List.filter_eq_self]
  intro a ha
  simp [hn a ha]

theorem addAccount_fresh (st : Store) (S : List Account) (n ak sk rg : String)
    (hfile : st.file = .holds ⟨S⟩) (hw : st.writeErr = none) (hn : ∀ a ∈ S, a.Name ≠ n) :
    addAccount st n ak sk rg =
      ⟨[.readFile, .writeFile ⟨S ++ [⟨n, ak, sk, stringsSplit rg ','⟩]⟩, .stdout (.accountAdded n)],
       .returned, { st with file := .holds ⟨S ++ [⟨n, ak, sk, stringsSplit rg ','⟩]⟩ }⟩ := by
  simp [addAccount, readConfig, writeConfig, hfile, hw, any_name_eq_false hn]

theorem removeAccount_present (st : Store) (S : List Account) (n : String)
    (hfile : st.file = .holds ⟨S⟩) (hw : st.writeErr = none) (hin : ∃ a ∈ S, a.Name = n) :
    removeAccount st n =
      ⟨[.readFile, .writeFile ⟨S.filter (fun account => account.Name != n)⟩,
        .stdout (.accountRemoved n)],
       .returned, { st with file := .holds ⟨S.filter (fun account => account.Name != n)⟩ }⟩ := by
  obtain ⟨a, ha, han⟩ := hin
  have hlen : (S.filter (fun account => account.Name != n)).length ≠ S.length := by
    intro h
    have h2 := (List.filter_eq_self (p := fun account : Account => account.Name != n)).1
      (List.filter_sublist S |>.eq_of_length h) a ha
    simp [han] at h2
  simp [removeAccount, readConfig, writeConfig, hfile, hw, hlen]

/-- C6: on a readable, writable store holding the account list `S`, adding an
account under a name `n` that no record of `S` has succeeds, the removal of `n`
that follows succeeds, and the store afterwards is the store before: it holds
`S`, the same records in the same order. -/
theorem addAccount_removeAccount_roundtrip (st : Store) (S : List Account)
    (n ak sk rg : String)
    (hfile : st.file = .holds ⟨S⟩) (hw : st.writeErr = none) (hn : ∀ a ∈ S, a.Name ≠ n) :
    (addAccount st n ak sk rg).status = .returned ∧
    (removeAccount (addAccount st n ak sk rg).store n).status = .returned ∧
    (removeAccount (addAccount st n ak sk rg).store n).store.file = .holds ⟨S⟩ ∧
    (removeAccount (addAccount st n ak sk rg).store n).store = st := by
  rw [addAccount_fresh st S n ak sk rg hfile hw hn]
  have hrem := removeAccount_present
    { st with file := .holds ⟨S ++ [⟨n, ak, sk, stringsSplit rg ','⟩]⟩ }
    (S ++ [⟨n, ak, sk, stringsSplit rg ','⟩]) n rfl hw
    ⟨⟨n, ak, sk, stringsSplit rg ','⟩, by simp, rfl⟩
  have hfilter : (S ++ [(⟨n, ak, sk, stringsSplit rg ','⟩ : Account)]).filter
      (fun account => account.Name != n) = S := by
    rw [List.filter_append, filter_name_ne_self hn]
    simp
  rw [hfilter] at hrem
  refine ⟨rfl, ?_⟩
  dsimp only
  rw [hrem]
  refine ⟨rfl, rfl, ?_⟩
  cases st
  simp_all

/-- Witness of C6: the account "dev" added to, then removed from, a store that
holds the account "prod". -/
theorem addAccount_removeAccount_roundtrip_witness :
    (addAccount ⟨.holds ⟨[⟨"prod", "AK1", "SK1", ["us-east-1"]⟩]⟩, none⟩
        "dev" "AK2" "SK2" "us-east-1,eu-west-1").status = .returned ∧
    (removeAccount (addAccount ⟨.holds ⟨[⟨"prod", "AK1", "SK1", ["us-east-1"]⟩]⟩, none⟩
        "dev" "AK2" "SK2" "us-east-1,eu-west-1").store "dev").status = .returned ∧
    (removeAccount (addAccount ⟨.holds ⟨[⟨"prod", "AK1", "SK1", ["us-east-1"]⟩]⟩, none⟩
        "dev" "AK2" "SK2" "us-east-1,eu-west-1").store "dev").store.file
      = .holds ⟨[⟨"prod", "AK1", "SK1", ["us-east-1"]⟩]⟩ ∧
    (removeAccount (addAccount ⟨.holds ⟨[⟨"prod", "AK1", "SK1", ["us-east-1"]⟩]⟩, none⟩
        "dev" "AK2" "SK2" "us-east-1,eu-west-1").store "dev").store
      = ⟨.holds ⟨[⟨"prod", "AK1", "SK1", ["us-east-1"]⟩]⟩, none⟩ :=
  addAccount_removeAccount_roundtrip ⟨.holds ⟨[⟨"prod", "AK1", "SK1", ["us-east-1"]⟩]⟩, none⟩
    [⟨"prod", "AK1", "SK1", ["us-east-1"]⟩] "dev" "AK2" "SK2" "us-east-1,eu-west-1" rfl rfl
    (by decide)

/-- C7: on a readable store holding the account list `S`, adding an account
under a name `n` that a record of `S` already has ends the process through
`log.Fatalf` with the message "Account n already exists", whatever the keys
and regions; the file is read, never written, and the store is unchanged. -/
theorem addAccount_duplicate (st : Store) (S : List Account) (n ak sk rg : String)
    (hfile : st.file = .holds ⟨S⟩) (hdup : ∃ a ∈ S, a.Name = n) :
    (addAccount st n ak sk rg).status = .exited 1 ∧
    (addAccount st n ak sk rg).trace
      = [.readFile, .log ("Account " ++ n ++ " already exists")] ∧
    (addAccount st n ak sk rg).trace.filter Event.isWrite = [] ∧
    (addAccount st n ak sk rg).store = st ∧
    (addAccount st n ak sk rg).store.file = .holds ⟨S⟩ := by
  obtain ⟨a, ha, han⟩ := hdup
  have hany : S.any (fun account => account.Name == n) = true := by
    simp only [List.any_eq_true, beq_iff_eq]
    exact ⟨a, ha, han⟩
  simp [addAccount, readConfig, hfile, hany, Event.isWrite]

/-- Witness of C7: "prod" added again to a store that holds "prod". -/
theorem addAccount_duplicate_witness :
    (addAccount ⟨.holds ⟨[⟨"prod", "AK1", "SK1", ["us-east-1"]⟩]⟩, none⟩
        "prod" "AK9" "SK9" "eu-west-1").status = .exited 1 ∧
    (addAccount ⟨.holds ⟨[⟨"prod", "AK1", "SK1", ["us-east-1"]⟩]⟩, none⟩
        "prod" "AK9" "SK9" "eu-west-1").store.file
      = .holds ⟨[⟨"prod", "AK1", "SK1", ["us-east-1"]⟩]⟩ :=
  have h := addAccount_duplicate ⟨.holds ⟨[⟨"prod", "AK1", "SK1", ["us-east-1"]⟩]⟩, none⟩
    [⟨"prod", "AK1", "SK1", ["us-east-1"]⟩] "prod" "AK9" "SK9" "eu-west-1" rfl
    ⟨⟨"prod", "AK1", "SK1", ["us-east-1"]⟩, by simp, rfl⟩
  ⟨h.1, h.2.2.2.2⟩

/-- C10: on a store whose records have pairwise distinct names, a successful
`addAccount` and a successful `removeAccount`, with any arguments, leave a
store whose records have pairwise distinct names. -/
theorem names_nodup_preserved (st : Store) (S : List Account)
    (hfile : st.file = .holds ⟨S⟩) (hnodup : (S.map Account.Name).Nodup) :
    (∀ n ak sk rg : String, (addAccount st n ak sk rg).status = .returned →
      ∃ S1, (addAccount st n ak sk rg).store.file = .holds ⟨S1⟩ ∧ (S1.map Account.Name).Nodup) ∧
    (∀ n : String, (removeAccount st n).status = .returned →
      ∃ S1, (removeAccount st n).store.file = .holds ⟨S1⟩ ∧ (S1.map Account.Name).Nodup) := by
  constructor
  · intro n ak sk rg hret
    by_cases hany : S.any (fun account => account.Name == n) = true
    · simp [addAccount, readConfig, hfile, hany] at hret
    · cases hw : st.writeErr with
      | some err => simp [addAccount, readConfig, writeConfig, hfile, hany, hw] at hret
      | none =>
        refine ⟨S ++ [⟨n, ak, sk, stringsSplit rg ','⟩], ?_, ?_⟩
        · simp [addAccount, readConfig, writeConfig, hfile, hany, hw]
        · simp only [List.any_eq_true, beq_iff_eq, not_exists, not_and] at hany
          rw [List.map_append, List.nodup_append]
          refine ⟨hnodup, by simp, ?_⟩
          intro x hx hx2
          simp only [List.map_cons, List.map_nil, List.mem_singleton] at hx2
          obtain ⟨a, ha, rfl⟩ := List.mem_map.1 hx
          exact hany a ha hx2
  · intro n hret
    by_cases hlen : (S.filter (fun account => account.Name != n)).length = S.length
    · simp [removeAccount, readConfig, hfile, hlen] at hret
    · cases hw : st.writeErr with
      | some err => simp [removeAccount, readConfig, writeConfig, hfile, hlen, hw] at hret
      | none =>
        refine ⟨S.filter (fun account => account.Name != n), ?_, ?_⟩
        · simp [removeAccount, readConfig, writeConfig, hfile, hlen, hw]
        · exact hnodup.sublist ((List.filter_sublist S).map Account.Name)

/-- Witness of C10: a store holding "prod" and "dev". -/
theorem names_nodup_preserved_witness :
    (∃ S1, (addAccount ⟨.holds ⟨[⟨"prod", "AK1", "SK1", ["us-east-1"]⟩,
        ⟨"dev", "AK2", "SK2", ["eu-west-1"]⟩]⟩, none⟩ "test" "AK3" "SK3" "us-east-1").store.file
        = .holds ⟨S1⟩ ∧ (S1.map Account.Name).Nodup) ∧
    (∃ S1, (removeAccount ⟨.holds ⟨[⟨"prod", "AK1", "SK1", ["us-east-1"]⟩,
        ⟨"dev", "AK2", "SK2", ["eu-west-1"]⟩]⟩, none⟩ "dev").store.file
        = .holds ⟨S1⟩ ∧ (S1.map Account.Name).Nodup) :=
  have h := names_nodup_preserved ⟨.holds ⟨[⟨"prod", "AK1", "SK1", ["us-east-1"]⟩,
    ⟨"dev", "AK2", "SK2", ["eu-west-1"]⟩]⟩, none⟩
    [⟨"prod", "AK1", "SK1", ["us-east-1"]⟩, ⟨"dev", "AK2", "SK2", ["eu-west-1"]⟩] rfl (by decide)
  ⟨h.1 "test" "AK3" "SK3" "us-east-1" (by decide), h.2 "dev" (by decide)⟩

/-! ## Sequencing -/

theorem seq_of_returned {r : Run} (k : Run) (h : r.status = .returned) :
    r.seq k = ⟨r.trace ++ k.trace, k.status⟩ := by
  simp [Run.seq, h]

theorem seq_of_not_returned {r : Run} (k : Run) (h : r.status ≠ .returned) : r.seq k = r := by
  cases r with
  | mk t s => cases s <;> simp_all [Run.seq]

theorem mem_seq_trace {r k : Run} {e : Event} (h : e ∈ (r.seq k).trace) :
    e ∈ r.trace ∨ e ∈ k.trace := by
  by_cases hr : r.status = .returned
  · rw [seq_of_returned k hr] at h
    exact List.mem_append.1 h
  · rw [seq_of_not_returned k hr] at h
    exact Or.inl h

theorem done_seq (k : Run) : Run.done.seq k = k := by
  simp [Run.seq, Run.done]

theorem after_trace (es : List Event) (r : Run) : (r.after es).trace = es ++ r.trace := rfl

theorem after_status (es : List Event) (r : Run) : (r.after es).status = r.status := rfl

/-! ## The instance matcher: results -/

theorem printInstance_stdout (region : String) (inst : Instance) :
    ∀ e ∈ (printInstance region inst).trace, e.isStdout = true := by
  have h : (printInstance region inst).trace.all Event.isStdout = true := by
    unfold printInstance
    cases hp : inst.PrivateIpAddress <;> cases hq : inst.PublicIpAddress <;>
      simp [Event.isStdout]
  exact fun e he => List.all_eq_true.1 h e he

theorem printInstances_stdout (region : String) (l : List Instance) :
    ∀ e ∈ (printInstances region l).trace, e.isStdout = true := by
  induction l with
  | nil => simp [printInstances, Run.done]
  | cons inst rest ih =>
    intro e he
    rcases mem_seq_trace he with h | h
    · exact printInstance_stdout region inst e h
    · exact ih e h

theorem printReservations_stdout (region : String) (l : List Reservation) :
    ∀ e ∈ (printReservations region l).trace, e.isStdout = true := by
  induction l with
  | nil => simp [printReservations, Run.done]
  | cons r rest ih =>
    intro e he
    rcases mem_seq_trace he with h | h
    · exact printInstances_stdout region r.Instances e h
    · exact ih e h

theorem printResult_stdout (accountName region : String) (result : DescribeInstancesOutput) :
    ∀ e ∈ (printResult accountName region result).trace, e.isStdout = true := by
  intro e he
  unfold printResult at he
  split at he
  · rw [after_trace] at he
    rcases List.mem_append.1 he with h | h
    · simp only [List.mem_singleton] at h
      simp [h, Event.isStdout]
    · exact printReservations_stdout region _ e h
  · simp [Run.done] at he

theorem printResults_stdout (accountName region : String) (l : List DescribeInstancesOutput) :
    ∀ e ∈ (printResults accountName region l).trace, e.isStdout = true := by
  induction l with
  | nil => simp [printResults, Run.done]
  | cons r rest ih =>
    intro e he
    rcases mem_seq_trace he with h | h
    · exact printResult_stdout accountName region r e h
    · exact ih e h

theorem filter_eq_nil_of_stdout {l : List Event} {p : Event → Bool}
    (hl : ∀ e ∈ l, e.isStdout = true) (hp : ∀ e, e.isStdout = true → p e = false) :
    l.filter p = [] := by
  rw [List.filter_eq_nil_iff]
  intro e he
  simp [hp e (hl e he)]

/-- C4: every call of `searchEC2Instances` with a non-empty `ipAddress` issues
exactly two filter queries, first the one on private-ip-address and then the
one on ip-address, each with the given address as its only filter value, and
both whatever any query returns.  With the by-identifier query, issued before
them when `instanceID` is non-empty too, they are all the `DescribeInstances`
calls of the invocation. -/
theorem searchEC2Instances_ip_queries (env : Remote) (cfg : AwsCfg)
    (accountName region instanceID ipAddress : String) (hip : ipAddress ≠ "") :
    (searchEC2Instances env cfg accountName region instanceID ipAddress).trace.filter
        Event.isDescribe
      = (if instanceID ≠ "" then [.describeInstances cfg ⟨[instanceID], []⟩] else [])
        ++ [.describeInstances cfg ⟨[], [⟨"private-ip-address", [ipAddress]⟩]⟩,
            .describeInstances cfg ⟨[], [⟨"ip-address", [ipAddress]⟩]⟩] ∧
    (searchEC2Instances env cfg accountName region instanceID ipAddress).trace.filter
        (fun e => match e with
          | .describeInstances _ input => decide (input.Filters ≠ [])
          | _ => false)
      = [.describeInstances cfg ⟨[], [⟨"private-ip-address", [ipAddress]⟩]⟩,
         .describeInstances cfg ⟨[], [⟨"ip-address", [ipAddress]⟩]⟩] := by
  have hprint := printResults_stdout accountName region
    (ec2Queries env cfg accountName region instanceID ipAddress).2
  constructor
  · unfold searchEC2Instances
    simp only [after_trace, List.filter_append]
    rw [filter_eq_nil_of_stdout hprint (by intro e; cases e <;> simp [Event.isStdout, Event.isDescribe])]
    unfold ec2Queries describeStep
    by_cases hid : instanceID = "" <;>
      cases env.DescribeInstances cfg (byIdInput instanceID) <;>
      cases env.DescribeInstances cfg (privateIPFilter ipAddress) <;>
      cases env.DescribeInstances cfg (publicIPFilter ipAddress) <;>
      simp [hid, hip, Event.isDescribe, byIdInput, privateIPFilter, publicIPFilter]
  · unfold searchEC2Instances
    simp only [after_trace, List.filter_append]
    rw [filter_eq_nil_of_stdout hprint (by intro e; cases e <;> simp [Event.isStdout])]
    unfold ec2Queries describeStep
    by_cases hid : instanceID = "" <;>
      cases env.DescribeInstances cfg (byIdInput instanceID) <;>
      cases env.DescribeInstances cfg (privateIPFilter ipAddress) <;>
      cases env.DescribeInstances cfg (publicIPFilter ipAddress) <;>
      simp [hid, hip, byIdInput, privateIPFilter, publicIPFilter]

/-! ## The principal matcher: results -/

theorem scanUsers_status (env : Remote) (cfg : AwsCfg) (accountName key : String)
    (users : List User) : (scanUsers env cfg accountName key users).status = .returned := by
  induction users with
  | nil => rfl
  | cons u rest ih =>
    unfold scanUsers
    cases env.ListAccessKeys cfg u.UserName with
    | error err => simpa [after_status] using ih
    | ok keys =>
      by_cases hk : keys.any (fun m => m.AccessKeyId == key) = true
      · simp [hk]
      · simpa [hk, after_status] using ih

theorem searchIAMUser_status (env : Remote) (cfg : AwsCfg) (accountName key : String) :
    (searchIAMUser env cfg accountName key).status = .returned := by
  unfold searchIAMUser
  cases env.ListUsers cfg with
  | error err => rfl
  | ok users => simpa [after_status] using scanUsers_status env cfg accountName key users

theorem scanUsers_stdout (env : Remote) (cfg : AwsCfg) (accountName key : String)
    (users : List User) :
    (scanUsers env cfg accountName key users).trace.filter Event.isStdout
      = match users.find? (holdsKey env cfg key) with
        | some u => foundReport key accountName u
        | none => [.stdout (.iamNotFound key accountName)] := by
  induction users with
  | nil => simp [scanUsers, Event.isStdout]
  | cons u rest ih =>
    unfold scanUsers
    cases hl : env.ListAccessKeys cfg u.UserName with
    | error err =>
      have hh : holdsKey env cfg key u = false := by simp [holdsKey, hl]
      simp only [after_trace, List.filter_append, List.find?_cons, hh]
      simpa [Event.isStdout] using ih
    | ok keys =>
      by_cases hk : keys.any (fun m => m.AccessKeyId == key) = true
      · have hh : holdsKey env cfg key u = true := by simp only [holdsKey, hl]; exact hk
        simp [hk, hh, List.find?_cons, Event.isStdout, foundReport]
      · have hh : holdsKey env cfg key u = false := by
          simp only [holdsKey, hl]; simpa using hk
        simp only [hk, after_trace, List.filter_append, List.find?_cons, hh]
        simpa [Event.isStdout] using ih

theorem scanUsers_until (env : Remote) (cfg : AwsCfg) (accountName key : String)
    (users : List User) (i : Nat) (u : User) (hu : users[i]? = some u)
    (hbefore : ∀ v ∈ users.take i, ∃ keys, env.ListAccessKeys cfg v.UserName = .ok keys ∧
      key ∉ keys.map AccessKeyMetadata.AccessKeyId)
    (hhold : ∃ keys, env.ListAccessKeys cfg u.UserName = .ok keys ∧
      key ∈ keys.map AccessKeyMetadata.AccessKeyId) :
    (scanUsers env cfg accountName key users).trace
      = (users.take (i + 1)).map (fun v => Event.listAccessKeys cfg v.UserName)
        ++ foundReport key accountName u := by
  induction users generalizing i with
  | nil => simp at hu
  | cons w rest ih =>
    cases i with
    | zero =>
      simp only [List.getElem?_cons_zero, Option.some.injEq] at hu
      subst hu
      obtain ⟨keys, hk, hin⟩ := hhold
      have hany : keys.any (fun m => m.AccessKeyId == key) = true := by
        simp only [List.any_eq_true, beq_iff_eq]
        obtain ⟨m, hm, hmk⟩ := List.mem_map.1 hin
        exact ⟨m, hm, hmk⟩
      unfold scanUsers
      simp [hk, hany, foundReport]
    | succ j =>
      simp only [List.getElem?_cons_succ] at hu
      obtain ⟨keys, hk, hnot⟩ := hbefore w (by simp)
      have hany : keys.any (fun m => m.AccessKeyId == key) = false := by
        simp only [List.any_eq_false, beq_iff_eq]
        intro m hm hmk
        exact hnot (List.mem_map.2 ⟨m, hm, hmk⟩)
      have ih2 := ih j hu (fun v hv => hbefore v (by simp [List.take_succ_cons, hv]))
      unfold scanUsers
      simp [hk, hany, after_trace, ih2, List.take_succ_cons]

/-- C3: when `ListUsers` succeeds with `users`, the user `u` at index `i` holds
the target key, and the key listing of every user before index `i` succeeds
without the target key, `searchIAMUser` issues exactly `i + 1` `ListAccessKeys`
calls, for the users at indices `0..i` in enumeration order and for no later
user, reports `u` as found, and returns. -/
theorem searchIAMUser_calls_until_match (env : Remote) (cfg : AwsCfg)
    (accountName key : String) (users : List User) (i : Nat) (u : User)
    (hlist : env.ListUsers cfg = .ok users) (hu : users[i]? = some u)
    (hbefore : ∀ v ∈ users.take i, ∃ keys, env.ListAccessKeys cfg v.UserName = .ok keys ∧
      key ∉ keys.map AccessKeyMetadata.AccessKeyId)
    (hhold : ∃ keys, env.ListAccessKeys cfg u.UserName = .ok keys ∧
      key ∈ keys.map AccessKeyMetadata.AccessKeyId) :
    (searchIAMUser env cfg accountName key).trace.filter Event.isListAccessKeys
      = (users.take (i + 1)).map (fun v => Event.listAccessKeys cfg v.UserName) ∧
    ((searchIAMUser env cfg accountName key).trace.filter Event.isListAccessKeys).length
      = i + 1 ∧
    (searchIAMUser env cfg accountName key).trace.filter Event.isStdout
      = foundReport key accountName u ∧
    (searchIAMUser env cfg accountName key).status = .returned := by
  have htrace : (searchIAMUser env cfg accountName key).trace
      = [.listUsers cfg] ++ ((users.take (i + 1)).map (fun v => Event.listAccessKeys cfg v.UserName)
        ++ foundReport key accountName u) := by
    unfold searchIAMUser
    simp only [hlist, after_trace]
    rw [scanUsers_until env cfg accountName key users i u hu hbefore hhold]
  have hcalls : (searchIAMUser env cfg accountName key).trace.filter Event.isListAccessKeys
      = (users.take (i + 1)).map (fun v => Event.listAccessKeys cfg v.UserName) := by
    rw [htrace]
    simp only [List.filter_append]
    have h1 : ((users.take (i + 1)).map (fun v => Event.listAccessKeys cfg v.UserName)).filter
        Event.isListAccessKeys
        = (users.take (i + 1)).map (fun v => Event.listAccessKeys cfg v.UserName) := by
      rw [List.filter_eq_self]
      intro e he
      obtain ⟨v, _, rfl⟩ := List.mem_map.1 he
      rfl
    rw [h1]
    simp [foundReport, Event.isListAccessKeys]
  have hlt : i < users.length := by
    rcases Nat.lt_or_ge i users.length with h | h
    · exact h
    · rw [List.getElem?_eq_none h] at hu
      cases hu
  refine ⟨hcalls, ?_, ?_, searchIAMUser_status env cfg accountName key⟩
  · rw [hcalls, List.length_map, List.length_take]
    omega
  · rw [htrace]
    simp only [List.filter_append]
    have h1 : ((users.take (i + 1)).map (fun v => Event.listAccessKeys cfg v.UserName)).filter
        Event.isStdout = [] := by
      rw [List.filter_eq_nil_iff]
      intro e he
      obtain ⟨v, _, rfl⟩ := List.mem_map.1 he
      simp [Event.isStdout]
    rw [h1]
    simp [foundReport, Event.isStdout]

/-- Witness of C3: "bob", at index 1 of three users, holds the key; two
`ListAccessKeys` calls are issued, for "alice" and "bob". -/
theorem searchIAMUser_calls_until_match_witness :
    (searchIAMUser Example.iamRemote Example.cfg "prod" "AKIATARGET").trace.filter
        Event.isListAccessKeys
      = [.listAccessKeys Example.cfg "alice", .listAccessKeys Example.cfg "bob"] ∧
    (searchIAMUser Example.iamRemote Example.cfg "prod" "AKIATARGET").trace.filter
        Event.isStdout
      = foundReport "AKIATARGET" "prod" ⟨"bob", "AIDA2", "arn:aws:iam::1:user/bob"⟩ :=
  have h := searchIAMUser_calls_until_match Example.iamRemote Example.cfg "prod" "AKIATARGET"
    Example.users 1 ⟨"bob", "AIDA2", "arn:aws:iam::1:user/bob"⟩ rfl rfl
    (by
      intro v hv
      simp only [Example.users, List.take_succ_cons, List.take_zero, List.mem_singleton] at hv
      subst hv
      exact ⟨[⟨"AKIAALICE"⟩], rfl, by decide⟩)
    ⟨[⟨"AKIABOB"⟩, ⟨"AKIATARGET"⟩], rfl, by decide⟩
  ⟨h.1, h.2.2.1⟩

theorem scanUsers_calls (env : Remote) (cfg : AwsCfg) (accountName key : String)
    (users : List User) :
    (scanUsers env cfg accountName key users).trace.filter Event.isListAccessKeys
      = (users.take (users.findIdx (holdsKey env cfg key) + 1)).map
          (fun v => Event.listAccessKeys cfg v.UserName) := by
  induction users with
  | nil => simp [scanUsers, Event.isListAccessKeys]
  | cons u rest ih =>
    unfold scanUsers
    cases hl : env.ListAccessKeys cfg u.UserName with
    | error err =>
      have hh : holdsKey env cfg key u = false := by simp [holdsKey, hl]
      simp only [after_trace, List.filter_append, List.findIdx_cons, hh, cond_false,
        List.take_succ_cons, List.map_cons, ih]
      simp [Event.isListAccessKeys]
    | ok keys =>
      by_cases hk : keys.any (fun m => m.AccessKeyId == key) = true
      · have hh : holdsKey env cfg key u = true := by simp only [holdsKey, hl]; exact hk
        simp [hk, hh, List.findIdx_cons, Event.isListAccessKeys]
      · have hk2 : keys.any (fun m => m.AccessKeyId == key) = false := by simpa using hk
        have hh : holdsKey env cfg key u = false := by
          simp only [holdsKey, hl]; exact hk2
        simp only [hk2, Bool.false_eq_true, if_false, after_trace, List.filter_append,
          List.findIdx_cons, hh, cond_false, List.take_succ_cons, List.map_cons, ih]
        simp [Event.isListAccessKeys]

/-- C8, as stated, fails: the key listing of "alice" is denied during the
invocation, and the invocation still reports "bob" as found. -/
theorem searchIAMUser_failure_then_match :
    Example.deniedRemote.ListAccessKeys Example.cfg "alice" = .error "AccessDenied" ∧
    Event.listAccessKeys Example.cfg "alice"
      ∈ (searchIAMUser Example.deniedRemote Example.cfg "prod" "AKIATARGET").trace ∧
    (searchIAMUser Example.deniedRemote Example.cfg "prod" "AKIATARGET").trace.filter
        Event.isStdout
      = foundReport "AKIATARGET" "prod" ⟨"bob", "AIDA2", "arn:aws:iam::1:user/bob"⟩ :=
  ⟨rfl, by decide, by decide⟩

theorem scanUsers_trace (env : Remote) (cfg : AwsCfg) (accountName key : String)
    (users : List User) :
    (scanUsers env cfg accountName key users).trace
      = (users.take (users.findIdx (holdsKey env cfg key) + 1)).flatMap
          (keyListing env cfg accountName)
        ++ scanReport env cfg accountName key users := by
  induction users with
  | nil => simp [scanUsers, scanReport]
  | cons u rest ih =>
    unfold scanUsers
    cases hl : env.ListAccessKeys cfg u.UserName with
    | error err =>
      have hh : holdsKey env cfg key u = false := by simp [holdsKey, hl]
      have hrep : scanReport env cfg accountName key (u :: rest)
          = scanReport env cfg accountName key rest := by
        simp [scanReport, List.find?_cons, hh]
      simp only [after_trace, ih, List.findIdx_cons, hh, cond_false, List.take_succ_cons,
        List.flatMap_cons, hrep, keyListing, hl]
      simp
    | ok keys =>
      by_cases hk : keys.any (fun m => m.AccessKeyId == key) = true
      · have hh : holdsKey env cfg key u = true := by simp only [holdsKey, hl]; exact hk
        simp [hk, hh, List.findIdx_cons, scanReport, List.find?_cons, keyListing, hl,
          foundReport]
      · have hk2 : keys.any (fun m => m.AccessKeyId == key) = false := by simpa using hk
        have hh : holdsKey env cfg key u = false := by
          simp only [holdsKey, hl]; exact hk2
        have hrep : scanReport env cfg accountName key (u :: rest)
            = scanReport env cfg accountName key rest := by
          simp [scanReport, List.find?_cons, hh]
        simp only [hk2, Bool.false_eq_true, if_false, after_trace, ih, List.findIdx_cons, hh,
          cond_false, List.take_succ_cons, List.flatMap_cons, hrep, keyListing, hl]
        simp

/-- C8, amended: `searchIAMUser` always returns to its caller.  A failed
`ListUsers` is logged and ends the invocation with no `ListAccessKeys` call and
nothing printed, so no user is reported as found.  After a successful
`ListUsers`, the invocation performs, for each user in order up to the first
one whose own listing succeeds and holds the key, the `ListAccessKeys` call
followed, when that call fails, by its log line, and nothing else for that
user: a failed listing is logged and only that user is skipped.  It then
reports that first user as found, or prints the not-found line when there is
none. -/
theorem searchIAMUser_failures (env : Remote) (cfg : AwsCfg) (accountName key : String) :
    (searchIAMUser env cfg accountName key).status = .returned ∧
    (∀ err, env.ListUsers cfg = .error err →
      (searchIAMUser env cfg accountName key).trace
        = [.listUsers cfg,
           .log ("Error listing IAM users in account " ++ accountName ++ ": " ++ err ++ "\n")]) ∧
    (∀ users, env.ListUsers cfg = .ok users →
      (searchIAMUser env cfg accountName key).trace.filter Event.isStdout
        = (match users.find? (holdsKey env cfg key) with
           | some u => foundReport key accountName u
           | none => [.stdout (.iamNotFound key accountName)]) ∧
      (searchIAMUser env cfg accountName key).trace.filter Event.isListAccessKeys
        = (users.take (users.findIdx (holdsKey env cfg key) + 1)).map
            (fun v => Event.listAccessKeys cfg v.UserName) ∧
      (searchIAMUser env cfg accountName key).trace
        = [.listUsers cfg]
          ++ (users.take (users.findIdx (holdsKey env cfg key) + 1)).flatMap
              (fun v => Event.listAccessKeys cfg v.UserName ::
                (match env.ListAccessKeys cfg v.UserName with
                 | .error err =>
                     [.log ("Error listing access keys for user " ++ v.UserName
                       ++ " in account " ++ accountName ++ ": " ++ err ++ "\n")]
                 | .ok _ => []))
          ++ (match users.find? (holdsKey env cfg key) with
              | some u => foundReport key accountName u
              | none => [.stdout (.iamNotFound key accountName)])) := by
  refine ⟨searchIAMUser_status env cfg accountName key, ?_, ?_⟩
  · intro err herr
    simp [searchIAMUser, herr]
  · intro users hok
    refine ⟨?_, ?_, ?_⟩
    · unfold searchIAMUser
      simp only [hok, after_trace, List.filter_append]
      rw [scanUsers_stdout]
      simp [Event.isStdout]
    · unfold searchIAMUser
      simp only [hok, after_trace, List.filter_append]
      rw [scanUsers_calls]
      simp [Event.isListAccessKeys]
    · unfold searchIAMUser
      simp only [hok, after_trace]
      rw [scanUsers_trace]
      simp only [List.append_assoc]
      rfl

/-! ## The orchestrator: results -/

theorem seq_assoc (a b c : Run) : (a.seq b).seq c = a.seq (b.seq c) := by
  cases a with
  | mk ta sa =>
    cases b with
    | mk tb sb => cases sa <;> cases sb <;> simp [Run.seq]

theorem runAll_append (l1 l2 : List Run) : runAll (l1 ++ l2) = (runAll l1).seq (runAll l2) := by
  induction l1 with
  | nil => simp [runAll, done_seq]
  | cons r rest ih => simp [runAll, ih, seq_assoc]

theorem searchRegions_eq_runAll (env : Remote) (instanceID ipAddress searchIAM : String)
    (account : Account) (regions : List String) :
    searchRegions env instanceID ipAddress searchIAM account regions
      = runAll (regions.map (searchPair env instanceID ipAddress searchIAM account)) := by
  induction regions with
  | nil => rfl
  | cons r rest ih => simp [searchRegions, runAll, ih]

theorem searchAccounts_eq_runAll (env : Remote) (instanceID ipAddress searchIAM : String)
    (accounts : List Account) :
    searchAccounts env instanceID ipAddress searchIAM accounts
      = runAll ((pairsOf accounts).map
          (fun p => searchPair env instanceID ipAddress searchIAM p.1 p.2)) := by
  induction accounts with
  | nil => rfl
  | cons a rest ih =>
    simp only [searchAccounts, pairsOf, List.flatMap_cons, List.map_append, runAll_append,
      searchRegions_eq_runAll, List.map_map]
    rw [ih]
    rfl

theorem runAll_all_returned (l : List Run) (h : ∀ r ∈ l, r.status = .returned) :
    runAll l = ⟨l.flatMap Run.trace, .returned⟩ := by
  induction l with
  | nil => rfl
  | cons r rest ih =>
    have hr := h r (by simp)
    have ih2 := ih (fun x hx => h x (by simp [hx]))
    simp [runAll, seq_of_returned _ hr, ih2]

theorem runAll_stop (pre post : List Run) (r : Run) (hpre : ∀ x ∈ pre, x.status = .returned)
    (hr : r.status ≠ .returned) :
    runAll (pre ++ r :: post) = ⟨pre.flatMap Run.trace ++ r.trace, r.status⟩ := by
  rw [runAll_append, runAll_all_returned pre hpre]
  have h1 : runAll (r :: post) = r := by
    simp [runAll, seq_of_not_returned _ hr]
  rw [h1]
  simp [Run.seq]

theorem scanUsers_filter_nil (env : Remote) (cfg : AwsCfg) (accountName key : String)
    (users : List User) (p : Event → Bool) (h1 : ∀ c n, p (.listAccessKeys c n) = false)
    (h2 : ∀ l, p (.stdout l) = false) (h3 : ∀ t, p (.log t) = false) :
    (scanUsers env cfg accountName key users).trace.filter p = [] := by
  induction users with
  | nil => simp [scanUsers, h2]
  | cons u rest ih =>
    unfold scanUsers
    cases env.ListAccessKeys cfg u.UserName with
    | error err => simp [after_trace, ih, h1, h3]
    | ok keys =>
      by_cases hk : keys.any (fun m => m.AccessKeyId == key) = true
      · simp [hk, h1, h2]
      · simp [hk, after_trace, ih, h1]

theorem searchPair_iam_status (env : Remote) (instanceID ipAddress searchIAM : String)
    (hiam : searchIAM ≠ "") (a : Account) (region : String) :
    (searchPair env instanceID ipAddress searchIAM a region).status = .returned := by
  unfold searchPair
  cases env.LoadDefaultConfig region a.AccessKey a.SecretKey with
  | error err => rfl
  | ok c => simp [hiam, after_status, searchIAMUser_status]

theorem searchPair_iam_loads (env : Remote) (instanceID ipAddress searchIAM : String)
    (hiam : searchIAM ≠ "") (p : Account × String) :
    (searchPair env instanceID ipAddress searchIAM p.1 p.2).trace.filter Event.isLoad
      = [loadEvent p] := by
  unfold searchPair
  cases env.LoadDefaultConfig p.2 p.1.AccessKey p.1.SecretKey with
  | error err => simp [Event.isLoad, loadEvent]
  | ok c =>
    simp only [hiam, ne_eq, not_false_eq_true, if_true, after_trace, List.filter_append]
    unfold searchIAMUser
    cases env.ListUsers c with
    | error err => simp [Event.isLoad, loadEvent]
    | ok users =>
      simp only [after_trace, List.filter_append]
      rw [scanUsers_filter_nil env c p.1.Name searchIAM users Event.isLoad
        (fun _ _ => rfl) (fun _ => rfl) (fun _ => rfl)]
      simp [Event.isLoad, loadEvent]

theorem searchPair_iam_listUsers (env : Remote) (instanceID ipAddress searchIAM : String)
    (hiam : searchIAM ≠ "") (p : Account × String) :
    (searchPair env instanceID ipAddress searchIAM p.1 p.2).trace.filter Event.isListUsers
      = (clientOf env p).toList.map Event.listUsers := by
  unfold searchPair clientOf
  cases env.LoadDefaultConfig p.2 p.1.AccessKey p.1.SecretKey with
  | error err => simp [Event.isListUsers]
  | ok c =>
    simp only [hiam, ne_eq, not_false_eq_true, if_true, after_trace, List.filter_append]
    unfold searchIAMUser
    cases env.ListUsers c with
    | error err => simp [Event.isListUsers]
    | ok users =>
      simp only [after_trace, List.filter_append]
      rw [scanUsers_filter_nil env c p.1.Name searchIAM users Event.isListUsers
        (fun _ _ => rfl) (fun _ => rfl) (fun _ => rfl)]
      simp [Event.isListUsers]

theorem searchPair_iam_stdout (env : Remote) (instanceID ipAddress searchIAM : String)
    (hiam : searchIAM ≠ "") (p : Account × String) :
    (searchPair env instanceID ipAddress searchIAM p.1 p.2).trace.filter Event.isStdout
      = match clientOf env p with
        | none => []
        | some c =>
          match env.ListUsers c with
          | .error _ => []
          | .ok users =>
            match users.find? (holdsKey env c searchIAM) with
            | some u => foundReport searchIAM p.1.Name u
            | none => [.stdout (.iamNotFound searchIAM p.1.Name)] := by
  unfold searchPair clientOf
  cases env.LoadDefaultConfig p.2 p.1.AccessKey p.1.SecretKey with
  | error err => simp [Event.isStdout]
  | ok c =>
    simp only [hiam, ne_eq, not_false_eq_true, if_true, after_trace, List.filter_append]
    unfold searchIAMUser
    cases env.ListUsers c with
    | error err => simp [Event.isStdout]
    | ok users =>
      simp only [after_trace, List.filter_append, scanUsers_stdout]
      simp [Event.isStdout]

theorem filter_isFound_of_stdout (l : List Event) :
    l.filter Event.isFound = (l.filter Event.isStdout).filter Event.isFound := by
  rw [List.filter_filter]
  congr 1
  funext e
  cases e with
  | stdout line => simp [Event.isStdout]
  | _ => simp [Event.isFound]

theorem searchPair_iam_found (env : Remote) (instanceID ipAddress searchIAM : String)
    (hiam : searchIAM ≠ "") (p : Account × String) :
    (searchPair env instanceID ipAddress searchIAM p.1 p.2).trace.filter Event.isFound
      = if pairMatches env instanceID ipAddress searchIAM p = true then
          [.stdout (.iamFound searchIAM p.1.Name)]
        else [] := by
  rw [filter_isFound_of_stdout, searchPair_iam_stdout env instanceID ipAddress searchIAM hiam p]
  unfold pairMatches clientOf
  cases hc : env.LoadDefaultConfig p.2 p.1.AccessKey p.1.SecretKey with
  | error err => simp
  | ok c =>
    cases hl : env.ListUsers c with
    | error err => simp [hiam, hl]
    | ok users =>
      cases hf : users.find? (holdsKey env c searchIAM) with
      | none =>
        have hany : users.any (holdsKey env c searchIAM) = false := by
          rw [List.any_eq_false]
          intro u hu
          have := List.find?_eq_none.1 hf u hu
          simpa using this
        simp [hiam, hl, hf, hany, Event.isFound]
      | some u =>
        have hany : users.any (holdsKey env c searchIAM) = true := by
          rw [List.any_eq_true]
          exact ⟨u, List.mem_of_find?_eq_some hf, List.find?_some hf⟩
        simp [hiam, hl, hf, hany, Event.isFound, foundReport]

theorem flatMap_singleton_eq_map {α β : Type} (f : α → β) (l : List α) :
    l.flatMap (fun x => [f x]) = l.map f := by
  induction l with
  | nil => rfl
  | cons x rest ih => simp [ih]

theorem flatMap_ite_eq_filter_map {α β : Type} (c : α → Bool) (f : α → β) (l : List α) :
    l.flatMap (fun x => if c x = true then [f x] else []) = (l.filter c).map f := by
  induction l with
  | nil => rfl
  | cons x rest ih =>
    by_cases hc : c x = true
    · simp [hc, ih]
    · simp [hc, ih]

theorem flatMap_toList_map {α β γ : Type} (g : α → Option β) (f : β → γ) (l : List α) :
    l.flatMap (fun x => (g x).toList.map f) = (l.filterMap g).map f := by
  induction l with
  | nil => rfl
  | cons x rest ih =>
    cases hg : g x with
    | none => simp [hg, ih, List.filterMap_cons]
    | some y => simp [hg, ih, List.filterMap_cons]

theorem search_iam_run (env : Remote) (st : Store) (cfg : Config)
    (instanceID ipAddress searchIAM : String)
    (hfile : st.file = .holds cfg) (hiam : searchIAM ≠ "") :
    search env st instanceID ipAddress searchIAM
      = ⟨[.readFile] ++ (pairsOf cfg.Accounts).flatMap
          (fun p => (searchPair env instanceID ipAddress searchIAM p.1 p.2).trace),
         .returned⟩ := by
  unfold search
  simp only [readConfig, hfile, searchAccounts_eq_runAll]
  rw [runAll_all_returned]
  · simp [Run.after, List.flatMap_map]
  · intro r hr
    obtain ⟨q, _, rfl⟩ := List.mem_map.1 hr
    exact searchPair_iam_status env instanceID ipAddress searchIAM hiam q.1 q.2

/-- C9, as stated, fails: "bob" of "prod" is reported as found in us-east-1;
in eu-west-1, the further region of the same account, the client is
constructed and `searchIAMUser` is invoked, its `ListUsers` call is throttled,
and no match is reported again: one found report for two regions. -/
theorem search_iam_match_not_repeated :
    (search Example.throttledRemote Example.prodStore "" "" "AKIATARGET").status = .returned ∧
    (search Example.throttledRemote Example.prodStore "" "" "AKIATARGET").trace.filter
        Event.isListUsers
      = [.listUsers ⟨"us-east-1", "AK1", "SK1"⟩, .listUsers ⟨"eu-west-1", "AK1", "SK1"⟩] ∧
    (search Example.throttledRemote Example.prodStore "" "" "AKIATARGET").trace.filter
        Event.isFound
      = [.stdout (.iamFound "AKIATARGET" "prod")] ∧
    (search Example.throttledRemote Example.prodStore "" "" "AKIATARGET").trace.filter
        Event.isStdout
      = foundReport "AKIATARGET" "prod" ⟨"bob", "AIDA2", "arn:aws:iam::1:user/bob"⟩ :=
  ⟨by decide, by decide, by decide, by decide⟩

/-- C9, amended: an access-key search over a loaded account list never ends the
process and returns to its caller, whatever the remote answers.  Every
(account, region) pair is visited in stored order, also after a match: a client
construction is attempted for each pair and `searchIAMUser` is invoked (its
`ListUsers` call issued) once for each pair whose client was constructed.  A
user is reported as found once for every pair whose own calls yield the match
(its `ListUsers` succeeds with a user whose key listing succeeds and holds the
key) and for no other pair: a further region of the same account reports the
match again exactly when its own calls yield it. -/
theorem search_iam_never_exits (env : Remote) (st : Store) (cfg : Config)
    (instanceID ipAddress searchIAM : String)
    (hfile : st.file = .holds cfg) (hiam : searchIAM ≠ "") :
    (search env st instanceID ipAddress searchIAM).status = .returned ∧
    (search env st instanceID ipAddress searchIAM).trace
      = [.readFile] ++ (pairsOf cfg.Accounts).flatMap
          (fun p => (searchPair env instanceID ipAddress searchIAM p.1 p.2).trace) ∧
    (search env st instanceID ipAddress searchIAM).trace.filter Event.isLoad
      = (pairsOf cfg.Accounts).map loadEvent ∧
    (search env st instanceID ipAddress searchIAM).trace.filter Event.isListUsers
      = ((pairsOf cfg.Accounts).filterMap (clientOf env)).map Event.listUsers ∧
    (search env st instanceID ipAddress searchIAM).trace.filter Event.isFound
      = ((pairsOf cfg.Accounts).filter (pairMatches env instanceID ipAddress searchIAM)).map
          (fun p => Event.stdout (.iamFound searchIAM p.1.Name)) := by
  rw [search_iam_run env st cfg instanceID ipAddress searchIAM hfile hiam]
  refine ⟨rfl, rfl, ?_, ?_, ?_⟩
  · simp only [List.filter_append, List.filter_flatMap,
      searchPair_iam_loads env instanceID ipAddress searchIAM hiam, flatMap_singleton_eq_map]
    simp [Event.isLoad]
  · simp only [List.filter_append, List.filter_flatMap,
      searchPair_iam_listUsers env instanceID ipAddress searchIAM hiam, flatMap_toList_map]
    simp [Event.isListUsers]
  · simp only [List.filter_append, List.filter_flatMap,
      searchPair_iam_found env instanceID ipAddress searchIAM hiam, flatMap_ite_eq_filter_map]
    simp [Event.isFound]

/-- Witness of C9: the key of "bob" is found in both regions of "prod" and in
the one region of "dev" that has a client; the search returns. -/
theorem search_iam_never_exits_witness :
    (search Example.iamRemote Example.store "" "" "AKIATARGET").status = .returned ∧
    (search Example.iamRemote Example.store "" "" "AKIATARGET").trace.filter Event.isLoad
      = [.loadDefaultConfig "us-east-1" "AK1" "SK1", .loadDefaultConfig "eu-west-1" "AK1" "SK1",
         .loadDefaultConfig "bad-region" "AK2" "SK2", .loadDefaultConfig "us-west-2" "AK2" "SK2"] ∧
    (search Example.iamRemote Example.store "" "" "AKIATARGET").trace.filter Event.isFound
      = [.stdout (.iamFound "AKIATARGET" "prod"), .stdout (.iamFound "AKIATARGET" "prod"),
         .stdout (.iamFound "AKIATARGET" "dev")] :=
  have h := search_iam_never_exits Example.iamRemote Example.store ⟨Example.accounts⟩
    "" "" "AKIATARGET" rfl (by decide)
  ⟨h.1, h.2.2.1.trans (by decide), h.2.2.2.2.trans (by decide)⟩

/-! ## The instance matcher inside the orchestrator -/

theorem printInstance_not_returned (region : String) (inst : Instance) :
    (printInstance region inst).status ≠ .returned := by
  unfold printInstance
  cases inst.PrivateIpAddress <;> simp

theorem printInstances_eq (region : String) (l : List Instance) :
    printInstances region l
      = match l with
        | [] => Run.done
        | inst :: _ => printInstance region inst := by
  cases l with
  | nil => rfl
  | cons inst rest =>
    simp [printInstances, seq_of_not_returned _ (printInstance_not_returned region inst)]

theorem printReservations_eq (region : String) (rs : List Reservation) :
    printReservations region rs
      = match rs.flatMap (fun reservation => reservation.Instances) with
        | [] => Run.done
        | inst :: _ => printInstance region inst := by
  induction rs with
  | nil => rfl
  | cons r rest ih =>
    unfold printReservations
    rw [printInstances_eq]
    cases hi : r.Instances with
    | nil => simp [done_seq, ih, hi]
    | cons inst more =>
      simp [seq_of_not_returned _ (printInstance_not_returned region inst), hi]

theorem printResult_no_instance (accountName region : String) (out : DescribeInstancesOutput)
    (h : instancesOf out = []) :
    printResult accountName region out
      = ⟨if out.Reservations.length > 0 then [.stdout (.instancesFound accountName region)]
         else [], .returned⟩ := by
  unfold printResult
  unfold instancesOf at h
  rw [printReservations_eq, h]
  by_cases hl : out.Reservations.length > 0 <;> simp [hl, Run.after, Run.done]

theorem printResults_no_instance (accountName region : String)
    (results : List DescribeInstancesOutput) (h : ∀ out ∈ results, instancesOf out = []) :
    printResults accountName region results
      = ⟨(results.filter (fun out => decide (out.Reservations.length > 0))).map
          (fun _ => Event.stdout (.instancesFound accountName region)), .returned⟩ := by
  induction results with
  | nil => rfl
  | cons out rest ih =>
    unfold printResults
    rw [printResult_no_instance accountName region out (h out (by simp)),
      ih (fun o ho => h o (by simp [ho]))]
    by_cases hl : out.Reservations.length > 0 <;> simp [hl, Run.seq]

theorem ec2Queries_results (env : Remote) (cfg : AwsCfg)
    (accountName region instanceID ipAddress : String) :
    (ec2Queries env cfg accountName region instanceID ipAddress).2
      = (ec2Inputs instanceID ipAddress).filterMap
          (fun input => (env.DescribeInstances cfg input).toOption) := by
  unfold ec2Queries ec2Inputs describeStep
  by_cases hid : instanceID = "" <;> by_cases hip : ipAddress = "" <;>
    cases h1 : env.DescribeInstances cfg (byIdInput instanceID) <;>
    cases h2 : env.DescribeInstances cfg (privateIPFilter ipAddress) <;>
    cases h3 : env.DescribeInstances cfg (publicIPFilter ipAddress) <;>
    simp [hid, hip, h1, h2, h3, List.filterMap_cons, Except.toOption]

theorem ec2Queries_filter (env : Remote) (cfg : AwsCfg)
    (accountName region instanceID ipAddress : String) (p : Event → Bool)
    (hlog : ∀ t, p (.log t) = false) :
    (ec2Queries env cfg accountName region instanceID ipAddress).1.filter p
      = ((ec2Inputs instanceID ipAddress).map (Event.describeInstances cfg)).filter p := by
  unfold ec2Queries ec2Inputs describeStep
  by_cases hid : instanceID = "" <;> by_cases hip : ipAddress = "" <;>
    cases h1 : env.DescribeInstances cfg (byIdInput instanceID) <;>
    cases h2 : env.DescribeInstances cfg (privateIPFilter ipAddress) <;>
    cases h3 : env.DescribeInstances cfg (publicIPFilter ipAddress) <;>
    simp [hid, hip, h1, h2, h3, hlog, List.filter_cons]

theorem no_match_answers (env : Remote) (instanceID ipAddress : String) (p : Account × String)
    (c : AwsCfg) (hc : env.LoadDefaultConfig p.2 p.1.AccessKey p.1.SecretKey = .ok c)
    (hno : pairMatches env instanceID ipAddress "" p = false) :
    ∀ out ∈ ec2Answers env instanceID ipAddress c, instancesOf out = [] := by
  intro out hout
  unfold pairMatches at hno
  simp only [hc, ne_eq, not_true_eq_false, if_false, List.any_eq_false] at hno
  unfold ec2Answers at hout
  obtain ⟨input, hin, hopt⟩ := List.mem_filterMap.1 hout
  have h := hno input hin
  cases hd : env.DescribeInstances c input with
  | error err => simp [hd, Except.toOption] at hopt
  | ok o =>
    simp only [hd, Except.toOption, Option.some.injEq] at hopt
    subst hopt
    simpa [hd] using h

theorem searchEC2Instances_no_instance (env : Remote) (c : AwsCfg)
    (accountName region instanceID ipAddress : String)
    (h : ∀ out ∈ ec2Answers env instanceID ipAddress c, instancesOf out = []) :
    searchEC2Instances env c accountName region instanceID ipAddress
      = ⟨(ec2Queries env c accountName region instanceID ipAddress).1
          ++ ((ec2Answers env instanceID ipAddress c).filter
              (fun out => decide (out.Reservations.length > 0))).map
              (fun _ => Event.stdout (.instancesFound accountName region)), .returned⟩ := by
  unfold searchEC2Instances
  have hres : (ec2Queries env c accountName region instanceID ipAddress).2
      = ec2Answers env instanceID ipAddress c :=
    ec2Queries_results env c accountName region instanceID ipAddress
  simp only [hres]
  rw [printResults_no_instance accountName region _ h]
  rfl

theorem searchPair_ec2_no_match (env : Remote) (instanceID ipAddress : String)
    (p : Account × String) (hno : pairMatches env instanceID ipAddress "" p = false) :
    (searchPair env instanceID ipAddress "" p.1 p.2).status = .returned ∧
    (searchPair env instanceID ipAddress "" p.1 p.2).trace.filter Event.isLoad = [loadEvent p] ∧
    (searchPair env instanceID ipAddress "" p.1 p.2).trace.filter Event.isStdout
      = headersOf env instanceID ipAddress p := by
  unfold searchPair headersOf clientOf
  cases hc : env.LoadDefaultConfig p.2 p.1.AccessKey p.1.SecretKey with
  | error err => simp [Event.isLoad, Event.isStdout, loadEvent]
  | ok c =>
    have hans := no_match_answers env instanceID ipAddress p c hc hno
    simp only [ne_eq, not_true_eq_false, if_false]
    rw [searchEC2Instances_no_instance env c p.1.Name p.2 instanceID ipAddress hans]
    refine ⟨rfl, ?_, ?_⟩
    · simp only [after_trace, List.filter_append]
      rw [ec2Queries_filter env c p.1.Name p.2 instanceID ipAddress Event.isLoad (fun _ => rfl)]
      simp [Event.isLoad, loadEvent, List.filter_map, Function.comp_def]
    · simp only [after_trace, List.filter_append]
      rw [ec2Queries_filter env c p.1.Name p.2 instanceID ipAddress Event.isStdout (fun _ => rfl)]
      simp [Event.isStdout, List.filter_map, Function.comp_def]

/-! ## Search without a match -/

theorem search_run_of_all_returned (env : Remote) (st : Store) (cfg : Config)
    (instanceID ipAddress searchIAM : String) (hfile : st.file = .holds cfg)
    (hret : ∀ p ∈ pairsOf cfg.Accounts,
      (searchPair env instanceID ipAddress searchIAM p.1 p.2).status = .returned) :
    search env st instanceID ipAddress searchIAM
      = ⟨[.readFile] ++ (pairsOf cfg.Accounts).flatMap
          (fun p => (searchPair env instanceID ipAddress searchIAM p.1 p.2).trace),
         .returned⟩ := by
  unfold search
  simp only [readConfig, hfile, searchAccounts_eq_runAll]
  rw [runAll_all_returned]
  · simp [Run.after, List.flatMap_map]
  · intro r hr
    obtain ⟨q, hq, rfl⟩ := List.mem_map.1 hr
    exact hret q hq

theorem pairsOf_length_uniform (accounts : List Account) (M : Nat)
    (h : ∀ a ∈ accounts, a.Regions.length = M) :
    (pairsOf accounts).length = accounts.length * M := by
  induction accounts with
  | nil => simp [pairsOf]
  | cons a rest ih =>
    have ih2 := ih (fun x hx => h x (by simp [hx]))
    unfold pairsOf at ih2 ⊢
    simp only [List.flatMap_cons, List.length_append, List.length_map, ih2, List.length_cons,
      h a (by simp)]
    ring

theorem flatMap_congr_mem {α β : Type} (l : List α) (f g : α → List β)
    (h : ∀ x ∈ l, f x = g x) : l.flatMap f = l.flatMap g := by
  induction l with
  | nil => rfl
  | cons x rest ih =>
    simp only [List.flatMap_cons, h x (by simp), ih (fun y hy => h y (by simp [hy]))]

theorem searchPair_iam_no_match_stdout (env : Remote) (instanceID ipAddress searchIAM : String)
    (hiam : searchIAM ≠ "") (p : Account × String)
    (hno : pairMatches env instanceID ipAddress searchIAM p = false) :
    (searchPair env instanceID ipAddress searchIAM p.1 p.2).trace.filter Event.isStdout
      = if listUsersOk env p = true then [.stdout (.iamNotFound searchIAM p.1.Name)] else [] := by
  rw [searchPair_iam_stdout env instanceID ipAddress searchIAM hiam p]
  unfold pairMatches at hno
  unfold listUsersOk clientOf
  cases hc : env.LoadDefaultConfig p.2 p.1.AccessKey p.1.SecretKey with
  | error err => simp
  | ok c =>
    cases hl : env.ListUsers c with
    | error err => simp [hl]
    | ok users =>
      simp only [hc, hiam, ne_eq, not_false_eq_true, if_true, hl] at hno
      have hf : users.find? (holdsKey env c searchIAM) = none := by
        rw [List.find?_eq_none]
        intro u hu
        have := (List.any_eq_false.1 hno) u hu
        simpa using this
      simp [hl, hf]

/-- C2, as stated, fails: no user of any pair holds the key "AKIAMISSING", and
the access-key search prints a line for each pair that has a client. -/
theorem search_no_match_prints :
    (∀ p ∈ pairsOf Example.accounts,
      pairMatches Example.iamRemote "" "" "AKIAMISSING" p = false) ∧
    (search Example.iamRemote Example.store "" "" "AKIAMISSING").status = .returned ∧
    (search Example.iamRemote Example.store "" "" "AKIAMISSING").trace.filter Event.isStdout
      = [.stdout (.iamNotFound "AKIAMISSING" "prod"), .stdout (.iamNotFound "AKIAMISSING" "prod"),
         .stdout (.iamNotFound "AKIAMISSING" "dev")] ∧
    (search Example.iamRemote Example.store "" "" "AKIAMISSING").trace.filter Event.isStdout
      ≠ [] := by
  refine ⟨by decide, by decide, by decide, by decide⟩

/-- C2, amended: when no remote call yields a match at any pair, `search`
attempts the client construction of every (account, region) pair exactly once,
in stored order (N * M attempts for N accounts of M regions each), and returns
to its caller; it prints no instance record and no found report.  An instance
search prints only header lines, one for each answer with a non-empty
reservation list, hence nothing when no answer has a reservation.  An
access-key search prints the not-found line once for every pair that has a
client and whose `ListUsers` call succeeds. -/
theorem search_no_match (env : Remote) (st : Store) (cfg : Config)
    (instanceID ipAddress searchIAM : String) (hfile : st.file = .holds cfg)
    (hno : ∀ p ∈ pairsOf cfg.Accounts,
      pairMatches env instanceID ipAddress searchIAM p = false) :
    (search env st instanceID ipAddress searchIAM).status = .returned ∧
    (search env st instanceID ipAddress searchIAM).trace.filter Event.isLoad
      = (pairsOf cfg.Accounts).map loadEvent ∧
    (∀ M, (∀ a ∈ cfg.Accounts, a.Regions.length = M) →
      ((search env st instanceID ipAddress searchIAM).trace.filter Event.isLoad).length
        = cfg.Accounts.length * M) ∧
    (searchIAM = "" →
      (search env st instanceID ipAddress searchIAM).trace.filter Event.isStdout
        = (pairsOf cfg.Accounts).flatMap (headersOf env instanceID ipAddress)) ∧
    (searchIAM = "" →
      (∀ p ∈ pairsOf cfg.Accounts, ∀ c, clientOf env p = some c →
        ∀ out ∈ ec2Answers env instanceID ipAddress c, out.Reservations = []) →
      (search env st instanceID ipAddress searchIAM).trace.filter Event.isStdout = []) ∧
    (searchIAM ≠ "" →
      (search env st instanceID ipAddress searchIAM).trace.filter Event.isStdout
        = ((pairsOf cfg.Accounts).filter (listUsersOk env)).map
            (fun p => Event.stdout (.iamNotFound searchIAM p.1.Name))) := by
  have hperpair : ∀ p ∈ pairsOf cfg.Accounts,
      (searchPair env instanceID ipAddress searchIAM p.1 p.2).status = .returned ∧
      (searchPair env instanceID ipAddress searchIAM p.1 p.2).trace.filter Event.isLoad
        = [loadEvent p] := by
    intro p hp
    by_cases hiam : searchIAM = ""
    · subst hiam
      have h := searchPair_ec2_no_match env instanceID ipAddress p (hno p hp)
      exact ⟨h.1, h.2.1⟩
    · exact ⟨searchPair_iam_status env instanceID ipAddress searchIAM hiam p.1 p.2,
        searchPair_iam_loads env instanceID ipAddress searchIAM hiam p⟩
  have hrun := search_run_of_all_returned env st cfg instanceID ipAddress searchIAM hfile
    (fun p hp => (hperpair p hp).1)
  have hloads : (search env st instanceID ipAddress searchIAM).trace.filter Event.isLoad
      = (pairsOf cfg.Accounts).map loadEvent := by
    rw [hrun]
    simp only [List.filter_append, List.filter_flatMap]
    rw [flatMap_congr_mem _ _ (fun p => [loadEvent p]) (fun p hp => (hperpair p hp).2),
      flatMap_singleton_eq_map]
    simp [Event.isLoad]
  have hheaders : searchIAM = "" →
      (search env st instanceID ipAddress searchIAM).trace.filter Event.isStdout
        = (pairsOf cfg.Accounts).flatMap (headersOf env instanceID ipAddress) := by
    intro hiam
    subst hiam
    rw [hrun]
    simp only [List.filter_append, List.filter_flatMap]
    rw [flatMap_congr_mem _ _ (headersOf env instanceID ipAddress)
      (fun p hp => (searchPair_ec2_no_match env instanceID ipAddress p (hno p hp)).2.2)]
    simp [Event.isStdout]
  refine ⟨by rw [hrun], hloads, ?_, hheaders, ?_, ?_⟩
  · intro M hM
    rw [hloads, List.length_map, pairsOf_length_uniform cfg.Accounts M hM]
  · intro hiam hres
    rw [hheaders hiam, List.flatMap_eq_nil_iff]
    intro p hp
    unfold headersOf
    cases hc : clientOf env p with
    | none => rfl
    | some c =>
      simp only [List.map_eq_nil_iff, List.filter_eq_nil_iff]
      intro out hout
      simp [hres p hp c hc out hout]
  · intro hiam
    rw [hrun]
    simp only [List.filter_append, List.filter_flatMap]
    rw [flatMap_congr_mem _ _
      (fun p => if listUsersOk env p = true then
        [Event.stdout (.iamNotFound searchIAM p.1.Name)] else [])
      (fun p hp => searchPair_iam_no_match_stdout env instanceID ipAddress searchIAM hiam p
        (hno p hp)),
      flatMap_ite_eq_filter_map]
    simp [Event.isStdout]

/-- Witness of C2: an instance search for an identifier no region knows visits
the four pairs of the two accounts of two regions each, returns, and prints
nothing. -/
theorem search_no_match_witness :
    (search Example.ec2Remote Example.store "i-none" "" "").status = .returned ∧
    (search Example.ec2Remote Example.store "i-none" "" "").trace.filter Event.isLoad
      = [.loadDefaultConfig "us-east-1" "AK1" "SK1", .loadDefaultConfig "eu-west-1" "AK1" "SK1",
         .loadDefaultConfig "bad-region" "AK2" "SK2", .loadDefaultConfig "us-west-2" "AK2" "SK2"] ∧
    ((search Example.ec2Remote Example.store "i-none" "" "").trace.filter Event.isLoad).length
      = 2 * 2 ∧
    (search Example.ec2Remote Example.store "i-none" "" "").trace.filter Event.isStdout = [] :=
  have h := search_no_match Example.ec2Remote Example.store ⟨Example.accounts⟩ "i-none" "" ""
    rfl (by decide)
  ⟨h.1, h.2.1.trans (by decide), h.2.2.1 2 (by decide), (h.2.2.2.1 rfl).trans (by decide)⟩

/-- Witness of C4: the private-address query fails, the public-address query is
issued all the same. -/
theorem searchEC2Instances_ip_queries_witness :
    Example.ec2Remote.DescribeInstances Example.cfg (privateIPFilter "10.0.0.5")
      = .error "RequestLimitExceeded" ∧
    (searchEC2Instances Example.ec2Remote Example.cfg "prod" "us-east-1" "" "10.0.0.5").trace.filter
        Event.isDescribe
      = [.describeInstances Example.cfg ⟨[], [⟨"private-ip-address", ["10.0.0.5"]⟩]⟩,
         .describeInstances Example.cfg ⟨[], [⟨"ip-address", ["10.0.0.5"]⟩]⟩] :=
  ⟨rfl, (searchEC2Instances_ip_queries Example.ec2Remote Example.cfg "prod" "us-east-1" ""
    "10.0.0.5" (by decide)).1.trans (by decide)⟩

/-! ## A pair without a client -/

theorem searchRegions_append (env : Remote) (instanceID ipAddress searchIAM : String)
    (a : Account) (rs1 rs2 : List String) :
    searchRegions env instanceID ipAddress searchIAM a (rs1 ++ rs2)
      = (searchRegions env instanceID ipAddress searchIAM a rs1).seq
          (searchRegions env instanceID ipAddress searchIAM a rs2) := by
  simp only [searchRegions_eq_runAll, List.map_append, runAll_append]

theorem searchAccounts_append (env : Remote) (instanceID ipAddress searchIAM : String)
    (as1 as2 : List Account) :
    searchAccounts env instanceID ipAddress searchIAM (as1 ++ as2)
      = (searchAccounts env instanceID ipAddress searchIAM as1).seq
          (searchAccounts env instanceID ipAddress searchIAM as2) := by
  induction as1 with
  | nil => simp [searchAccounts, done_seq]
  | cons a rest ih => simp [searchAccounts, ih, seq_assoc]

theorem searchRegions_congr (env : Remote) (instanceID ipAddress searchIAM : String)
    (a b : Account) (hn : a.Name = b.Name) (hk : a.AccessKey = b.AccessKey)
    (hs : a.SecretKey = b.SecretKey) (rs : List String) :
    searchRegions env instanceID ipAddress searchIAM a rs
      = searchRegions env instanceID ipAddress searchIAM b rs := by
  induction rs with
  | nil => rfl
  | cons r rest ih => simp [searchRegions, searchPair, ih, hn, hk, hs]

theorem seq_skip_filter (a b : Run) (es : List Event) (p : Event → Bool)
    (hes : es.filter p = []) :
    (a.seq ((⟨es, .returned⟩ : Run).seq b)).trace.filter p = (a.seq b).trace.filter p := by
  cases a with
  | mk ta sa => cases sa <;> simp [Run.seq, hes]

theorem seq_skip_status (a b : Run) (es : List Event) :
    (a.seq ((⟨es, .returned⟩ : Run).seq b)).status = (a.seq b).status := by
  cases a with
  | mk ta sa => cases sa <;> simp [Run.seq]

/-- C5: when the client construction fails for the pair of account `A` and its
region `R`, `search` issues no remote query for that pair and goes on: its run
is the run over the pairs before, the failed attempt with its log line, and the
run over the pairs after, where the run for the account list with that region
removed is the run over the pairs before and the run over the pairs after.  So
both runs issue the same remote calls in the same order, print the same lines
and end the same way. -/
theorem search_skips_failed_client (env : Remote) (st st2 : Store) (as1 as2 : List Account)
    (A : Account) (rs1 rs2 : List String) (R instanceID ipAddress searchIAM err : String)
    (hfile : st.file = .holds ⟨as1 ++ A :: as2⟩)
    (hregions : A.Regions = rs1 ++ R :: rs2)
    (hfile2 : st2.file = .holds ⟨as1 ++ { A with Regions := rs1 ++ rs2 } :: as2⟩)
    (hfail : env.LoadDefaultConfig R A.AccessKey A.SecretKey = .error err) :
    searchPair env instanceID ipAddress searchIAM A R = failedLoad A R err ∧
    (searchPair env instanceID ipAddress searchIAM A R).trace.filter Event.isRemote = [] ∧
    search env st instanceID ipAddress searchIAM
      = (((searchAccounts env instanceID ipAddress searchIAM as1).seq
            (searchRegions env instanceID ipAddress searchIAM A rs1)).seq
          ((failedLoad A R err).seq
            ((searchRegions env instanceID ipAddress searchIAM A rs2).seq
              (searchAccounts env instanceID ipAddress searchIAM as2)))).after [.readFile] ∧
    search env st2 instanceID ipAddress searchIAM
      = (((searchAccounts env instanceID ipAddress searchIAM as1).seq
            (searchRegions env instanceID ipAddress searchIAM A rs1)).seq
          ((searchRegions env instanceID ipAddress searchIAM A rs2).seq
            (searchAccounts env instanceID ipAddress searchIAM as2))).after [.readFile] ∧
    (search env st instanceID ipAddress searchIAM).trace.filter Event.isRemote
      = (search env st2 instanceID ipAddress searchIAM).trace.filter Event.isRemote ∧
    (search env st instanceID ipAddress searchIAM).trace.filter Event.isStdout
      = (search env st2 instanceID ipAddress searchIAM).trace.filter Event.isStdout ∧
    (search env st instanceID ipAddress searchIAM).status
      = (search env st2 instanceID ipAddress searchIAM).status := by
  have hpair : searchPair env instanceID ipAddress searchIAM A R = failedLoad A R err := by
    simp [searchPair, hfail, failedLoad]
  have h1 : search env st instanceID ipAddress searchIAM
      = (((searchAccounts env instanceID ipAddress searchIAM as1).seq
            (searchRegions env instanceID ipAddress searchIAM A rs1)).seq
          ((failedLoad A R err).seq
            ((searchRegions env instanceID ipAddress searchIAM A rs2).seq
              (searchAccounts env instanceID ipAddress searchIAM as2)))).after [.readFile] := by
    unfold search
    simp only [readConfig, hfile]
    rw [searchAccounts_append]
    simp only [searchAccounts, hregions, searchRegions_append, searchRegions, hpair, seq_assoc]
  have h2 : search env st2 instanceID ipAddress searchIAM
      = (((searchAccounts env instanceID ipAddress searchIAM as1).seq
            (searchRegions env instanceID ipAddress searchIAM A rs1)).seq
          ((searchRegions env instanceID ipAddress searchIAM A rs2).seq
            (searchAccounts env instanceID ipAddress searchIAM as2))).after [.readFile] := by
    unfold search
    simp only [readConfig, hfile2]
    rw [searchAccounts_append]
    simp only [searchAccounts, searchRegions_append, seq_assoc]
    rw [searchRegions_congr env instanceID ipAddress searchIAM
        { A with Regions := rs1 ++ rs2 } A rfl rfl rfl rs1,
      searchRegions_congr env instanceID ipAddress searchIAM
        { A with Regions := rs1 ++ rs2 } A rfl rfl rfl rs2]
  refine ⟨hpair, ?_, h1, h2, ?_, ?_, ?_⟩
  · rw [hpair]
    simp [failedLoad, Event.isRemote]
  · rw [h1, h2]
    simp only [after_trace, List.filter_append]
    unfold failedLoad
    rw [seq_skip_filter _ _ _ Event.isRemote (by simp [Event.isRemote])]
  · rw [h1, h2]
    simp only [after_trace, List.filter_append]
    unfold failedLoad
    rw [seq_skip_filter _ _ _ Event.isStdout (by simp [Event.isStdout])]
  · rw [h1, h2]
    simp only [after_status]
    unfold failedLoad
    rw [seq_skip_status]

/-- Witness of C5: no client for "bad-region" of "dev"; the access-key search
goes on to us-west-2 and issues the remote calls of the account list without
"bad-region". -/
theorem search_skips_failed_client_witness :
    (search Example.iamRemote Example.store "" "" "AKIATARGET").trace.filter Event.isRemote
      = (search Example.iamRemote
          ⟨.holds ⟨[⟨"prod", "AK1", "SK1", ["us-east-1", "eu-west-1"]⟩,
                    ⟨"dev", "AK2", "SK2", ["us-west-2"]⟩]⟩, none⟩
          "" "" "AKIATARGET").trace.filter Event.isRemote ∧
    Event.listUsers ⟨"us-west-2", "AK2", "SK2"⟩
      ∈ (search Example.iamRemote Example.store "" "" "AKIATARGET").trace :=
  ⟨(search_skips_failed_client Example.iamRemote Example.store
      ⟨.holds ⟨[⟨"prod", "AK1", "SK1", ["us-east-1", "eu-west-1"]⟩,
                ⟨"dev", "AK2", "SK2", ["us-west-2"]⟩]⟩, none⟩
      [⟨"prod", "AK1", "SK1", ["us-east-1", "eu-west-1"]⟩] []
      ⟨"dev", "AK2", "SK2", ["bad-region", "us-west-2"]⟩ [] ["us-west-2"] "bad-region"
      "" "" "AKIATARGET" "invalid region" rfl rfl rfl rfl).2.2.2.2.1,
   by decide⟩

/-! ## Search by instance identifier -/

theorem printResult_first_instance (accountName region : String) (out : DescribeInstancesOutput)
    (inst : Instance) (rest : List Instance) (hinst : instancesOf out = inst :: rest) :
    printResult accountName region out
      = (printInstance region inst).after [.stdout (.instancesFound accountName region)] := by
  unfold printResult
  unfold instancesOf at hinst
  have hlen : out.Reservations.length > 0 := by
    cases hr : out.Reservations with
    | nil => simp [hr] at hinst
    | cons r more => simp
  rw [printReservations_eq, hinst]
  simp [hlen]

theorem searchPair_first_instance (env : Remote) (instanceID : String) (hid : instanceID ≠ "")
    (A : Account) (R : String) (c : AwsCfg) (out : DescribeInstancesOutput) (inst : Instance)
    (rest : List Instance)
    (hc : env.LoadDefaultConfig R A.AccessKey A.SecretKey = .ok c)
    (hd : env.DescribeInstances c (byIdInput instanceID) = .ok out)
    (hinst : instancesOf out = inst :: rest) :
    searchPair env instanceID "" "" A R
      = (printInstance R inst).after
          [loadEvent (A, R), .describeInstances c (byIdInput instanceID),
           .stdout (.instancesFound A.Name R)] := by
  unfold searchPair
  simp only [hc, ne_eq, not_true_eq_false, if_false]
  unfold searchEC2Instances ec2Queries describeStep
  simp only [hid, ne_eq, not_false_eq_true, if_true, hd, not_true_eq_false, if_false,
    List.append_nil, printResults]
  rw [printResult_first_instance A.Name R out inst rest hinst]
  have hnr : ((printInstance R inst).after [.stdout (.instancesFound A.Name R)]).status
      ≠ .returned := by
    rw [after_status]
    exact printInstance_not_returned R inst
  rw [seq_of_not_returned _ hnr]
  simp [Run.after, loadEvent]

/-- The instance-identifier search up to its first match.  When the pair
`(A, R)` is the first in iteration order whose by-identifier call succeeds with
an instance, `inst` being the first one of the answer, `search` performs the
effects of the pairs before it, then for `(A, R)` the client construction, the
query, the header line and the record of `inst`, and nothing of any later pair.
With a private address on `inst` the process ends with status 0 after the full
record; without one it panics at the private-address line. -/
theorem search_instance_first_match (env : Remote) (st : Store) (cfg : Config)
    (instanceID : String) (pre post : List (Account × String)) (A : Account) (R : String)
    (c : AwsCfg) (out : DescribeInstancesOutput) (inst : Instance) (rest : List Instance)
    (hfile : st.file = .holds cfg) (hid : instanceID ≠ "")
    (hpairs : pairsOf cfg.Accounts = pre ++ (A, R) :: post)
    (hpre : ∀ p ∈ pre, pairMatches env instanceID "" "" p = false)
    (hc : env.LoadDefaultConfig R A.AccessKey A.SecretKey = .ok c)
    (hd : env.DescribeInstances c (byIdInput instanceID) = .ok out)
    (hinst : instancesOf out = inst :: rest) :
    search env st instanceID "" ""
      = ⟨[.readFile]
          ++ pre.flatMap (fun p => (searchPair env instanceID "" "" p.1 p.2).trace)
          ++ [loadEvent (A, R), .describeInstances c (byIdInput instanceID),
              .stdout (.instancesFound A.Name R)]
          ++ (printInstance R inst).trace,
         (printInstance R inst).status⟩ ∧
    (search env st instanceID "" "").trace.filter Event.isLoad
      = (pre ++ [(A, R)]).map loadEvent ∧
    (∀ ip, inst.PrivateIpAddress = some ip →
      (search env st instanceID "" "").status = .exited 0 ∧
      (printInstance R inst).trace
        = [.stdout (.instanceId inst.InstanceId), .stdout (.instanceType inst.InstanceType),
           .stdout (.region R), .stdout (.privateIp ip)]
          ++ (match inst.PublicIpAddress with
              | some publicIp => [.stdout (.publicIp publicIp)]
              | none => [])
          ++ [.stdout .separator]) ∧
    (inst.PrivateIpAddress = none → (search env st instanceID "" "").status = .panicked) := by
  have hp := searchPair_first_instance env instanceID hid A R c out inst rest hc hd hinst
  have hrun : search env st instanceID "" ""
      = ⟨[.readFile]
          ++ pre.flatMap (fun p => (searchPair env instanceID "" "" p.1 p.2).trace)
          ++ [loadEvent (A, R), .describeInstances c (byIdInput instanceID),
              .stdout (.instancesFound A.Name R)]
          ++ (printInstance R inst).trace,
         (printInstance R inst).status⟩ := by
    unfold search
    simp only [readConfig, hfile, searchAccounts_eq_runAll, hpairs, List.map_append,
      List.map_cons]
    rw [runAll_stop]
    · rw [hp]
      simp [Run.after, List.flatMap_map]
    · intro r hr
      obtain ⟨q, hq, rfl⟩ := List.mem_map.1 hr
      exact (searchPair_ec2_no_match env instanceID "" q (hpre q hq)).1
    · rw [hp, after_status]
      exact printInstance_not_returned R inst
  refine ⟨hrun, ?_, ?_, ?_⟩
  · rw [hrun]
    simp only [List.filter_append, List.filter_flatMap]
    rw [flatMap_congr_mem _ _ (fun p => [loadEvent p])
      (fun q hq => (searchPair_ec2_no_match env instanceID "" q (hpre q hq)).2.1),
      flatMap_singleton_eq_map,
      filter_eq_nil_of_stdout (printInstance_stdout R inst)
        (by intro e; cases e <;> simp [Event.isStdout, Event.isLoad])]
    simp [Event.isLoad, loadEvent]
  · intro ip hip
    rw [hrun]
    simp [printInstance, hip]
  · intro hnone
    rw [hrun]
    simp [printInstance, hnone]

/-- Witness of the first-match theorem: "i-0abc" is known in eu-west-1, the
second pair; the search prints it and exits with status 0 without visiting the
two pairs of "dev". -/
theorem search_instance_first_match_witness :
    search Example.ec2Remote Example.store "i-0abc" "" ""
      = ⟨[.readFile, .loadDefaultConfig "us-east-1" "AK1" "SK1",
          .describeInstances ⟨"us-east-1", "AK1", "SK1"⟩ (byIdInput "i-0abc"),
          .loadDefaultConfig "eu-west-1" "AK1" "SK1",
          .describeInstances ⟨"eu-west-1", "AK1", "SK1"⟩ (byIdInput "i-0abc"),
          .stdout (.instancesFound "prod" "eu-west-1"), .stdout (.instanceId "i-0abc"),
          .stdout (.instanceType "t3.micro"), .stdout (.region "eu-west-1"),
          .stdout (.privateIp "10.0.0.7"), .stdout (.publicIp "54.1.2.3"),
          .stdout .separator], .exited 0⟩ :=
  (search_instance_first_match Example.ec2Remote Example.store ⟨Example.accounts⟩ "i-0abc"
    [(⟨"prod", "AK1", "SK1", ["us-east-1", "eu-west-1"]⟩, "us-east-1")]
    [(⟨"dev", "AK2", "SK2", ["bad-region", "us-west-2"]⟩, "bad-region"),
     (⟨"dev", "AK2", "SK2", ["bad-region", "us-west-2"]⟩, "us-west-2")]
    ⟨"prod", "AK1", "SK1", ["us-east-1", "eu-west-1"]⟩ "eu-west-1" ⟨"eu-west-1", "AK1", "SK1"⟩
    ⟨[⟨[]⟩, ⟨[⟨"i-0abc", "t3.micro", some "10.0.0.7", some "54.1.2.3"⟩,
              ⟨"i-0abd", "t3.small", some "10.0.0.8", none⟩]⟩]⟩
    ⟨"i-0abc", "t3.micro", some "10.0.0.7", some "54.1.2.3"⟩
    [⟨"i-0abd", "t3.small", some "10.0.0.8", none⟩]
    rfl (by decide) rfl (by decide) rfl rfl rfl).1.trans (by decide)

/-- C1 on a terminated instance.  The by-identifier call for "i-0dead" succeeds
in us-east-1, the first pair, with one reservation holding one instance, which
has no private address.  The search prints the header and the first three lines
of the record, then panics on `*instance.PrivateIpAddress`: the record is not
completed and the process does not end with status 0. -/
theorem search_instance_terminated_panics :
    Example.terminatedRemote.DescribeInstances ⟨"us-east-1", "AK1", "SK1"⟩ (byIdInput "i-0dead")
      = .ok ⟨[⟨[⟨"i-0dead", "t3.micro", none, none⟩]⟩]⟩ ∧
    search Example.terminatedRemote Example.store "i-0dead" "" ""
      = ⟨[.readFile, .loadDefaultConfig "us-east-1" "AK1" "SK1",
          .describeInstances ⟨"us-east-1", "AK1", "SK1"⟩ (byIdInput "i-0dead"),
          .stdout (.instancesFound "prod" "us-east-1"), .stdout (.instanceId "i-0dead"),
          .stdout (.instanceType "t3.micro"), .stdout (.region "us-east-1")], .panicked⟩ ∧
    (search Example.terminatedRemote Example.store "i-0dead" "" "").status ≠ .exited 0 :=
  ⟨rfl, by decide, by decide⟩

end Gview
